import Mathlib

/-!
# Verification of the geoengine grid-blit engine and stream adapters

Shallow embedding of `src/datatypes/src/raster/operations/grid_blit.rs` and of
the stream adapters declared in `src/operators/src/adapters/mod.rs`.

The blit loops are translated directly from the Rust source.  The geometry
helpers (`intersection`, `linear_space_index_unchecked`, the `Grid` constructor
invariants) and the adapter implementations (`RasterTimeMultiFold`,
`FeatureCollectionChunkMerger`) live in files of the repository that are not
part of the provided sources, so they are modelled from the specification text
(sections 3, 4.1, 4.4 and 4.5); each such definition says so in its doc
comment.

Machine integers: grid indices are `isize` in the source and are modelled as
`Int`; linear buffer offsets are `usize` and are modelled as `Nat`.  All
quantities in the proofs stay far below any word-size bound, and the source
arithmetic that could overflow is exactly the arithmetic the well-formedness
invariants keep in range, so unbounded integers are a faithful model.

A `copy_from_slice` on mismatched or out-of-range slices panics in Rust; the
embedding returns `Option`, with `none` marking a panic.
-/

namespace GeoEngine

/-! ## 2-D grid geometry

Modelled from the spec (section 3): a `GridIdx` for a 2-D grid is a pair of
signed integers `[y, x]`; a `GridBoundingBox` is an inclusive min/max pair of
indices with the invariant `min[i] <= max[i]` on every axis; axis sizes are
`max[i] - min[i] + 1`.
-/

/-- A 2-D grid index `[y, x]` (signed, as `isize` in the source). -/
structure GridIdx2 where
  y : Int
  x : Int
deriving DecidableEq, Repr

/-- Modelled from the spec: an axis-aligned inclusive bounding box over 2-D
grid indices (`GridBoundingBox<[isize; 2]>` in the source). -/
structure GridBoundingBox2D where
  minIdx : GridIdx2
  maxIdx : GridIdx2
deriving DecidableEq, Repr

namespace GridBoundingBox2D

/-- The invariant `min[i] <= max[i]` for every axis, checked by
`GridBoundingBox::new` in the source. -/
def valid (b : GridBoundingBox2D) : Prop :=
  b.minIdx.y ≤ b.maxIdx.y ∧ b.minIdx.x ≤ b.maxIdx.x

instance : DecidablePred valid := fun b => by unfold valid; infer_instance

/-- Modelled from the spec: the checked constructor `GridBoundingBox::new`,
which rejects a box whose min exceeds its max on some axis. -/
def new (minIdx maxIdx : GridIdx2) : Option GridBoundingBox2D :=
  if (GridBoundingBox2D.mk minIdx maxIdx).valid then some ⟨minIdx, maxIdx⟩ else none

/-- Axis size along `y`: `max - min + 1` (`axis_size` in the source). -/
def ySize (b : GridBoundingBox2D) : Nat := (b.maxIdx.y - b.minIdx.y + 1).toNat

/-- Axis size along `x`: `max - min + 1` (`axis_size` in the source). -/
def xSize (b : GridBoundingBox2D) : Nat := (b.maxIdx.x - b.minIdx.x + 1).toNat

/-- Number of cells of the box (product of the axis sizes). -/
def numElements (b : GridBoundingBox2D) : Nat := b.ySize * b.xSize

/-- Membership of a grid index in a bounding box (both axes between min and
max inclusive). -/
def contains (b : GridBoundingBox2D) (y x : Int) : Prop :=
  b.minIdx.y ≤ y ∧ y ≤ b.maxIdx.y ∧ b.minIdx.x ≤ x ∧ x ≤ b.maxIdx.x

instance (b : GridBoundingBox2D) (y x : Int) : Decidable (b.contains y x) := by
  unfold contains; infer_instance

/-- Modelled from the spec (section 4.1): bounding-box intersection, computed
per axis as `max(a.min[i], b.min[i])..min(a.max[i], b.max[i])`; if any axis
range is empty the whole result is none. -/
def intersection (a b : GridBoundingBox2D) : Option GridBoundingBox2D :=
  let yLo := max a.minIdx.y b.minIdx.y
  let yHi := min a.maxIdx.y b.maxIdx.y
  let xLo := max a.minIdx.x b.minIdx.x
  let xHi := min a.maxIdx.x b.maxIdx.x
  if yLo ≤ yHi ∧ xLo ≤ xHi then some ⟨⟨yLo, xLo⟩, ⟨yHi, xHi⟩⟩ else none

/-- Modelled from the spec (section 4.1): `linear_space_index_unchecked` maps a
grid-space index inside the box to a row-major linear offset, using the box's
own axis sizes as strides; the last axis (`x`) varies fastest.  The source
returns `usize` and the caller guarantees the index is in the box; the `Int`
value is nonnegative exactly then. -/
def linearSpaceIndex (b : GridBoundingBox2D) (y x : Int) : Int :=
  (y - b.minIdx.y) * (b.xSize : Int) + (x - b.minIdx.x)

/-- The `usize` linear offset actually used to index buffers. -/
def linearSpaceIndexNat (b : GridBoundingBox2D) (y x : Int) : Nat :=
  (b.linearSpaceIndex y x).toNat

end GridBoundingBox2D

/-! ## Slice copies

`dst[a..a+n].copy_from_slice(&src[c..c+n])` in Rust panics when either range
leaves its buffer (the two ranges have equal length `n` by construction at
every call site of the blit).  `none` models the panic.
-/

/-- Overwrite `dst[start..start+seg.length]` with `seg`, leaving the rest. -/
def writeSlice {T : Type} (dst : List T) (start : Nat) (seg : List T) : List T :=
  dst.take start ++ seg ++ dst.drop (start + seg.length)

/-- `dst[dstStart..dstStart+len].copy_from_slice(&src[srcStart..srcStart+len])`:
`some` of the updated buffer when both ranges are in bounds, `none` (panic)
otherwise. -/
def copyFromSlice {T : Type} (dst : List T) (dstStart len : Nat) (src : List T)
    (srcStart : Nat) : Option (List T) :=
  if dstStart + len ≤ dst.length ∧ srcStart + len ≤ src.length then
    some (writeSlice dst dstStart ((src.drop srcStart).take len))
  else
    none

/-! ## Dense grids and the dense blits (from the source) -/

/-- A dense 2-D grid: a bounding box (offset and shape) plus a row-major
buffer (`Grid<D, T>` with a 2-D `D` in the source; the no-data sentinel plays
no role in blitting and is omitted). -/
structure Grid2D (T : Type) where
  bbox : GridBoundingBox2D
  data : List T
deriving DecidableEq, Repr

namespace Grid2D

/-- Modelled from the spec (section 3): `Grid::new` checks that the buffer
length equals the product of the axis sizes. -/
def new {T : Type} (bbox : GridBoundingBox2D) (data : List T) : Option (Grid2D T) :=
  if data.length = bbox.numElements then some ⟨bbox, data⟩ else none

/-- The construction invariant: a valid box and a buffer of exactly one value
per cell. -/
def wellFormed {T : Type} (g : Grid2D T) : Prop :=
  g.bbox.valid ∧ g.data.length = g.bbox.numElements

instance {T : Type} [DecidableEq T] (g : Grid2D T) : Decidable g.wellFormed := by
  unfold wellFormed; infer_instance

/-- The value stored for grid index `[y, x]` (meaningful when the index is in
the box of a well-formed grid). -/
def getCell {T : Type} (g : Grid2D T) (y x : Int) : Option T :=
  g.data[g.bbox.linearSpaceIndexNat y x]?

end Grid2D

/-- The row loop of `GridBlit<Grid<D, T>> for Grid2D<T>::grid_blit_from`
(grid_blit.rs lines 53-61): for each `y` of the intersection, copy the
contiguous row segment `[y, overlap_x_start .. overlap_x_start+overlap_x_size)`
from the source buffer into the destination buffer.  `rows` counts the rows
still to process, starting at row `y`. -/
def blitRows2D {T : Type} (offsetDim otherDim : GridBoundingBox2D) (otherData : List T)
    (overlapXStart : Int) (overlapXSize : Nat) :
    Int → Nat → List T → Option (List T)
  | _, 0, data => some data
  | y, rows + 1, data =>
    let otherStartX := otherDim.linearSpaceIndexNat y overlapXStart
    let selfStartX := offsetDim.linearSpaceIndexNat y overlapXStart
    match copyFromSlice data selfStartX overlapXSize otherData otherStartX with
    | none => none
    | some data1 =>
      blitRows2D offsetDim otherDim otherData overlapXStart overlapXSize (y + 1) rows data1

/-- `GridBlit<Grid<D, T>, T> for Grid2D<T>::grid_blit_from` (grid_blit.rs
lines 44-63): intersect the two bounding boxes; on no overlap do nothing,
otherwise copy row by row.  `none` models a panic inside the row copies. -/
def Grid2D.grid_blit_from {T : Type} (self : Grid2D T) (other : Grid2D T) :
    Option (Grid2D T) :=
  match self.bbox.intersection other.bbox with
  | none => some self
  | some inter =>
    (blitRows2D self.bbox other.bbox other.data inter.minIdx.x inter.xSize
        inter.minIdx.y inter.ySize self.data).map
      fun updated => ⟨self.bbox, updated⟩

/-! ## 1-D grids and their blit (grid_blit.rs lines 15-35) -/

/-- Modelled from the spec: a 1-D inclusive bounding box. -/
structure GridBoundingBox1D where
  minIdx : Int
  maxIdx : Int
deriving DecidableEq, Repr

namespace GridBoundingBox1D

/-- `min <= max`. -/
def valid (b : GridBoundingBox1D) : Prop := b.minIdx ≤ b.maxIdx

instance : DecidablePred valid := fun b => by unfold valid; infer_instance

/-- `max - min + 1`. -/
def axisSize (b : GridBoundingBox1D) : Nat := (b.maxIdx - b.minIdx + 1).toNat

/-- Modelled from the spec (section 4.1), one axis. -/
def intersection (a b : GridBoundingBox1D) : Option GridBoundingBox1D :=
  let lo := max a.minIdx b.minIdx
  let hi := min a.maxIdx b.maxIdx
  if lo ≤ hi then some ⟨lo, hi⟩ else none

/-- Modelled from the spec (section 4.1): the 1-D linear offset. -/
def linearSpaceIndexNat (b : GridBoundingBox1D) (i : Int) : Nat := (i - b.minIdx).toNat

end GridBoundingBox1D

/-- A dense 1-D grid (`Grid1D<T>` in the source). -/
structure Grid1D (T : Type) where
  bbox : GridBoundingBox1D
  data : List T
deriving DecidableEq, Repr

/-- Buffer length equals the axis size, and the box is valid. -/
def Grid1D.wellFormed {T : Type} (g : Grid1D T) : Prop :=
  g.bbox.valid ∧ g.data.length = g.bbox.axisSize

instance {T : Type} [DecidableEq T] (g : Grid1D T) : Decidable g.wellFormed := by
  unfold Grid1D.wellFormed
  infer_instance

/-- `GridBlit<Grid1D<T>, T> for Grid1D<T>::grid_blit_from` (grid_blit.rs lines
19-34): one contiguous slice copy over the whole intersection. -/
def Grid1D.grid_blit_from {T : Type} (self : Grid1D T) (other : Grid1D T) :
    Option (Grid1D T) :=
  match self.bbox.intersection other.bbox with
  | none => some self
  | some inter =>
    let overlapStart := inter.minIdx
    let overlapSize := inter.axisSize
    let selfStartX := self.bbox.linearSpaceIndexNat overlapStart
    let otherStartX := other.bbox.linearSpaceIndexNat overlapStart
    (copyFromSlice self.data selfStartX overlapSize other.data otherStartX).map
      fun updated => ⟨self.bbox, updated⟩

/-! ## 3-D grids and their blit (grid_blit.rs lines 109-140) -/

/-- A 3-D grid index `[z, y, x]`. -/
structure GridIdx3 where
  z : Int
  y : Int
  x : Int
deriving DecidableEq, Repr

/-- Modelled from the spec: a 3-D inclusive bounding box. -/
structure GridBoundingBox3D where
  minIdx : GridIdx3
  maxIdx : GridIdx3
deriving DecidableEq, Repr

namespace GridBoundingBox3D

/-- `min[i] <= max[i]` on every axis. -/
def valid (b : GridBoundingBox3D) : Prop :=
  b.minIdx.z ≤ b.maxIdx.z ∧ b.minIdx.y ≤ b.maxIdx.y ∧ b.minIdx.x ≤ b.maxIdx.x

instance : DecidablePred valid := fun b => by unfold valid; infer_instance

/-- Axis sizes `max - min + 1`. -/
def zSize (b : GridBoundingBox3D) : Nat := (b.maxIdx.z - b.minIdx.z + 1).toNat

/-- Axis size along `y`. -/
def ySize (b : GridBoundingBox3D) : Nat := (b.maxIdx.y - b.minIdx.y + 1).toNat

/-- Axis size along `x`. -/
def xSize (b : GridBoundingBox3D) : Nat := (b.maxIdx.x - b.minIdx.x + 1).toNat

/-- Product of the axis sizes. -/
def numElements (b : GridBoundingBox3D) : Nat := b.zSize * b.ySize * b.xSize

/-- Modelled from the spec (section 4.1), three axes. -/
def intersection (a b : GridBoundingBox3D) : Option GridBoundingBox3D :=
  let zLo := max a.minIdx.z b.minIdx.z
  let zHi := min a.maxIdx.z b.maxIdx.z
  let yLo := max a.minIdx.y b.minIdx.y
  let yHi := min a.maxIdx.y b.maxIdx.y
  let xLo := max a.minIdx.x b.minIdx.x
  let xHi := min a.maxIdx.x b.maxIdx.x
  if zLo ≤ zHi ∧ yLo ≤ yHi ∧ xLo ≤ xHi then
    some ⟨⟨zLo, yLo, xLo⟩, ⟨zHi, yHi, xHi⟩⟩
  else none

/-- Modelled from the spec (section 4.1): row-major linear offset, `x` varies
fastest, then `y`, then `z`. -/
def linearSpaceIndex (b : GridBoundingBox3D) (z y x : Int) : Int :=
  ((z - b.minIdx.z) * (b.ySize : Int) + (y - b.minIdx.y)) * (b.xSize : Int)
    + (x - b.minIdx.x)

/-- The `usize` linear offset. -/
def linearSpaceIndexNat (b : GridBoundingBox3D) (z y x : Int) : Nat :=
  (b.linearSpaceIndex z y x).toNat

end GridBoundingBox3D

/-- A dense 3-D grid (`Grid3D<T>` in the source). -/
structure Grid3D (T : Type) where
  bbox : GridBoundingBox3D
  data : List T
deriving DecidableEq, Repr

/-- Buffer length equals the product of the axis sizes, and the box is valid. -/
def Grid3D.wellFormed {T : Type} (g : Grid3D T) : Prop :=
  g.bbox.valid ∧ g.data.length = g.bbox.numElements

instance {T : Type} [DecidableEq T] (g : Grid3D T) : Decidable g.wellFormed := by
  unfold Grid3D.wellFormed
  infer_instance

/-- The inner `y` loop of the 3-D blit (grid_blit.rs lines 126-136): at plane
`z`, copy one row segment per `y` of the intersection. -/
def blitRows3D {T : Type} (offsetDim otherDim : GridBoundingBox3D) (otherData : List T)
    (overlapXStart : Int) (overlapXSize : Nat) (z : Int) :
    Int → Nat → List T → Option (List T)
  | _, 0, data => some data
  | y, rows + 1, data =>
    let selfStartX := offsetDim.linearSpaceIndexNat z y overlapXStart
    let otherStartX := otherDim.linearSpaceIndexNat z y overlapXStart
    match copyFromSlice data selfStartX overlapXSize otherData otherStartX with
    | none => none
    | some data1 =>
      blitRows3D offsetDim otherDim otherData overlapXStart overlapXSize z (y + 1) rows data1

/-- The outer `z` loop of the 3-D blit (grid_blit.rs lines 125-137). -/
def blitPlanes3D {T : Type} (offsetDim otherDim : GridBoundingBox3D) (otherData : List T)
    (overlapYStart : Int) (overlapYSize : Nat) (overlapXStart : Int) (overlapXSize : Nat) :
    Int → Nat → List T → Option (List T)
  | _, 0, data => some data
  | z, planes + 1, data =>
    match blitRows3D offsetDim otherDim otherData overlapXStart overlapXSize z
        overlapYStart overlapYSize data with
    | none => none
    | some data1 =>
      blitPlanes3D offsetDim otherDim otherData overlapYStart overlapYSize overlapXStart
        overlapXSize (z + 1) planes data1

/-- `GridBlit<Grid3D<T>, T> for Grid3D<T>::grid_blit_from` (grid_blit.rs lines
113-139). -/
def Grid3D.grid_blit_from {T : Type} (self : Grid3D T) (other : Grid3D T) :
    Option (Grid3D T) :=
  match self.bbox.intersection other.bbox with
  | none => some self
  | some inter =>
    (blitPlanes3D self.bbox other.bbox other.data inter.minIdx.y inter.ySize
        inter.minIdx.x inter.xSize inter.minIdx.z inter.zSize self.data).map
      fun updated => ⟨self.bbox, updated⟩

/-! ## No-data grids and the tagged union (grid_blit.rs lines 66-107) -/

/-- A grid-shaped region logically holding only the no-data value: geometry
plus the sentinel, no buffer (`NoDataGrid<D, T>` in the source). -/
structure NoDataGrid2D (T : Type) where
  bbox : GridBoundingBox2D
  noDataValue : T
deriving DecidableEq, Repr

/-- `NoDataGrid::get_at_grid_index_unchecked`: every cell reads as the
no-data value. -/
def NoDataGrid2D.get_at_grid_index_unchecked {T : Type} (g : NoDataGrid2D T)
    (_y _x : Int) : T :=
  g.noDataValue

/-- `Grid2D::set_at_grid_index_unchecked`: write one cell through the
row-major linear offset. -/
def Grid2D.set_at_grid_index_unchecked {T : Type} (g : Grid2D T) (y x : Int) (v : T) :
    Grid2D T :=
  ⟨g.bbox, g.data.set (g.bbox.linearSpaceIndexNat y x) v⟩

/-- The inner `x` loop of the no-data blit (grid_blit.rs lines 83-88):
element-by-element writes along one row. -/
def blitNoDataCols {T : Type} (other : NoDataGrid2D T) (y : Int) :
    Int → Nat → Grid2D T → Grid2D T
  | _, 0, g => g
  | x, cols + 1, g =>
    blitNoDataCols other y (x + 1) cols
      (g.set_at_grid_index_unchecked y x (other.get_at_grid_index_unchecked y x))

/-- The outer `y` loop of the no-data blit (grid_blit.rs lines 82-89). -/
def blitNoDataRows {T : Type} (other : NoDataGrid2D T) (overlapXStart : Int)
    (overlapXSize : Nat) : Int → Nat → Grid2D T → Grid2D T
  | _, 0, g => g
  | y, rows + 1, g =>
    blitNoDataRows other overlapXStart overlapXSize (y + 1) rows
      (blitNoDataCols other y overlapXStart overlapXSize g)

/-- `GridBlit<NoDataGrid<D, T>, T> for Grid2D<T>::grid_blit_from`
(grid_blit.rs lines 73-91). -/
def Grid2D.grid_blit_from_no_data {T : Type} (self : Grid2D T)
    (other : NoDataGrid2D T) : Grid2D T :=
  match self.bbox.intersection other.bbox with
  | none => self
  | some inter =>
    blitNoDataRows other inter.minIdx.x inter.xSize inter.minIdx.y inter.ySize self

/-- `GridOrEmpty<D, T>`: a tagged union of a dense grid and a no-data grid. -/
inductive GridOrEmpty2D (T : Type) where
  | grid (g : Grid2D T)
  | empty (e : NoDataGrid2D T)
deriving DecidableEq, Repr

/-- `GridBlit<GridOrEmpty<D, T>, T> for Grid2D<T>::grid_blit_from`
(grid_blit.rs lines 101-106): dispatch on the tag.  The no-data path cannot
panic, so it is wrapped in `some`. -/
def Grid2D.grid_blit_from_or_empty {T : Type} (self : Grid2D T)
    (other : GridOrEmpty2D T) : Option (Grid2D T) :=
  match other with
  | .grid g => self.grid_blit_from g
  | .empty e => some (self.grid_blit_from_no_data e)

/-! ## Arity-generic bounding boxes and intersection

The source's `GridIntersection::intersection` is implemented once per arity,
with the arity fixed by the index-array type.  Claims about "boxes of equal
arity" are stated over an arity-generic model: a box is its list of per-axis
inclusive `(min, max)` ranges.
-/

/-- Modelled from the spec: an n-dimensional inclusive bounding box, one
`(min, max)` pair per axis. -/
structure GridBoundingBoxN where
  axes : List (Int × Int)
deriving DecidableEq, Repr

namespace GridBoundingBoxN

/-- Number of axes. -/
def arity (b : GridBoundingBoxN) : Nat := b.axes.length

/-- Per-axis recursion of the intersection: `max` of the mins, `min` of the
maxes; an empty range on any axis kills the whole result.  Boxes of unequal
arity do not intersect (in the source the arities agree by type). -/
def intersectAxes : List (Int × Int) → List (Int × Int) → Option (List (Int × Int))
  | [], [] => some []
  | a :: as, b :: bs =>
    let lo := max a.1 b.1
    let hi := min a.2 b.2
    if lo ≤ hi then (intersectAxes as bs).map fun rest => (lo, hi) :: rest
    else none
  | _, _ => none

/-- Modelled from the spec (section 4.1): `intersection(a, b)` returns the
overlapping box, or none if the boxes do not overlap on some axis. -/
def intersection (a b : GridBoundingBoxN) : Option GridBoundingBoxN :=
  (intersectAxes a.axes b.axes).map GridBoundingBoxN.mk

/-- The spec's per-axis formula, written as one zip (the wording of section
4.1), to be compared with the recursive `intersection`. -/
def specIntersectionBox (a b : GridBoundingBoxN) : GridBoundingBoxN :=
  ⟨List.zipWith (fun p q => (max p.1 q.1, min p.2 q.2)) a.axes b.axes⟩

/-- The spec's overlap condition: every per-axis clipped range
`max(a.min[i], b.min[i])..min(a.max[i], b.max[i])` is non-empty. -/
def specOverlaps (a b : GridBoundingBoxN) : Prop :=
  ∀ r ∈ List.zipWith (fun p q => (max p.1 q.1, min p.2 q.2)) a.axes b.axes,
    r.1 ≤ r.2

instance (a b : GridBoundingBoxN) : Decidable (specOverlaps a b) := by
  unfold specOverlaps
  infer_instance

end GridBoundingBoxN

/-! ## Raster time multi-fold

Modelled from the spec (section 4.4): the implementation file
`operators/src/adapters/raster_time_substream.rs` (`RasterTimeMultiFold`) is
not among the provided sources; only its declaration and doc comment in
`adapters/mod.rs` are.  The adapter is a state machine over an upstream
stream of tiles: on the first tile it creates an accumulator with
`accum_init_fn` and folds the tile in; on a tile with the same time interval
as the open accumulator it folds the tile in; on a tile with a different
interval it emits the open accumulator and starts a fresh one for the new
interval; on end-of-stream it emits the final open accumulator.  The
embedding replays the whole (finite, error-free) upstream as a list and
collects the emitted items in order.
-/

/-- A raster tile reduced to what the time adapter reads: its time interval
and its payload (`RasterTile2D` carries more, none of it inspected here). -/
structure Tile (I : Type) (V : Type) where
  interval : I
  value : V
deriving DecidableEq, Repr

/-- Modelled from the spec (section 4.4): the `Accumulating` state.  `interval`
is the open accumulator's interval, `accum` the accumulator; the remaining
upstream tiles are consumed one by one. -/
def timeMultiFoldGo {I V A : Type} [DecidableEq I] (accumInitFn : Unit → A)
    (foldFn : A → Tile I V → A) (interval : I) (accum : A) :
    List (Tile I V) → List A
  | [] => [accum]
  | t :: ts =>
    if t.interval = interval then
      timeMultiFoldGo accumInitFn foldFn interval (foldFn accum t) ts
    else
      accum :: timeMultiFoldGo accumInitFn foldFn t.interval
        (foldFn (accumInitFn ()) t) ts

/-- Modelled from the spec (section 4.4): `time_multi_fold` — one fold per
run of equal-interval tiles, the accumulator created by `accum_init_fn` and
updated by `fold_fn`, one emitted item per completed fold. -/
def timeMultiFold {I V A : Type} [DecidableEq I] (accumInitFn : Unit → A)
    (foldFn : A → Tile I V → A) : List (Tile I V) → List A
  | [] => []
  | t :: ts =>
    timeMultiFoldGo accumInitFn foldFn t.interval (foldFn (accumInitFn ()) t) ts

/-- The maximal runs of consecutive equal-interval tiles, each tagged with its
interval. -/
def tileRuns {I V : Type} [DecidableEq I] : List (Tile I V) → List (I × List (Tile I V))
  | [] => []
  | t :: ts =>
    (t.interval, t :: ts.takeWhile (fun u => u.interval = t.interval)) ::
      tileRuns (ts.dropWhile (fun u => u.interval = t.interval))
termination_by ts => ts.length
decreasing_by
  simpa using Nat.lt_succ_of_le (List.dropWhile_sublist _).length_le

/-- The distinct values of a list in order of first arrival. -/
def firstOccurrences {I : Type} [DecidableEq I] : List I → List I
  | [] => []
  | i :: is => i :: firstOccurrences (is.filter (fun j => j ≠ i))
termination_by l => l.length
decreasing_by
  simpa using Nat.lt_succ_of_le (List.length_filter_le _ _)

/-- A list with consecutive duplicates collapsed: one entry per maximal run. -/
def dedupConsecutive {I : Type} [DecidableEq I] : List I → List I
  | [] => []
  | [i] => [i]
  | i :: j :: rest =>
    if i = j then dedupConsecutive (j :: rest) else i :: dedupConsecutive (j :: rest)

/-- The spec's ordering precondition (section 4.4), reduced to what the time
adapter needs: all tiles of one interval arrive contiguously, i.e. once an
interval's run ends that interval never reappears (the run labels are
pairwise distinct). -/
def GroupedIntervals {I V : Type} [DecidableEq I] (ts : List (Tile I V)) : Prop :=
  (dedupConsecutive (ts.map Tile.interval)).Nodup

instance {I V : Type} [DecidableEq I] (ts : List (Tile I V)) :
    Decidable (GroupedIntervals ts) := by
  unfold GroupedIntervals
  infer_instance

/-! ## Feature collection chunk merger

Modelled from the spec (section 4.5): the implementation file
`operators/src/adapters/feature_collection_merger.rs`
(`FeatureCollectionChunkMerger`) is not among the provided sources; only its
declaration in `adapters/mod.rs` is.  A feature collection batch is modelled
as the list of its features, each feature carrying its estimated serialized
byte size through `sizeF`; merging two batches concatenates their features and
the size estimate of a batch is the sum over its features.
-/

/-- Estimated serialized size of a batch: sum of its features' sizes. -/
def chunkByteSize {F : Type} (sizeF : F → Nat) (batch : List F) : Nat :=
  (batch.map sizeF).sum

/-- Modelled from the spec (section 4.5): the merger loop.  `pending` is the
pending buffer; on each upstream batch, if appending would exceed the budget
and the pending buffer is non-empty, flush the pending buffer and start a new
one with the batch, otherwise merge the batch in; at end-of-stream flush any
non-empty pending buffer. -/
def mergeChunksGo {F : Type} (sizeF : F → Nat) (chunkSizeBytes : Nat)
    (pending : List F) : List (List F) → List (List F)
  | [] => if pending.isEmpty then [] else [pending]
  | b :: bs =>
    if chunkSizeBytes < chunkByteSize sizeF pending + chunkByteSize sizeF b ∧
        ¬pending.isEmpty then
      pending :: mergeChunksGo sizeF chunkSizeBytes b bs
    else
      mergeChunksGo sizeF chunkSizeBytes (pending ++ b) bs

/-- Modelled from the spec (section 4.5): `merge_chunks` re-batches a stream
of feature collections against the byte budget `chunkSizeBytes`. -/
def mergeChunks {F : Type} (sizeF : F → Nat) (chunkSizeBytes : Nat)
    (batches : List (List F)) : List (List F) :=
  mergeChunksGo sizeF chunkSizeBytes [] batches

/-! ## Concrete examples (from the source tests in grid_blit.rs) -/

/-- The 4×4 all-zero destination at offset (0,0) of the source tests. -/
def destZero4 : Grid2D Nat := ⟨⟨⟨0, 0⟩, ⟨3, 3⟩⟩, List.replicate 16 0⟩

/-- The values `0..15` in row-major order. -/
def vals16 : List Nat := [0, 1, 2, 3, 4, 5, 6, 7, 8, 9, 10, 11, 12, 13, 14, 15]

/-- The source of test `grid_blit_from_2d_2_2`: the box
`GridBoundingBox::new([2,2], [2,2]+[3,3])`, i.e. min (2,2) and max (5,5) —
a 4×4 grid — filled with `0..15`. -/
def src4At22 : Grid2D Nat := ⟨⟨⟨2, 2⟩, ⟨5, 5⟩⟩, vals16⟩

/-- A genuine 3×3 box at offset (2,2): min (2,2), max (4,4). -/
def box33At22 : GridBoundingBox2D := ⟨⟨2, 2⟩, ⟨4, 4⟩⟩

/-- A genuine 3×3 grid at offset (2,2) holding `0..8` row-major. -/
def src3At22 : Grid2D Nat := ⟨box33At22, [0, 1, 2, 3, 4, 5, 6, 7, 8]⟩

/-- The blit result of the `(2,2)` test, as asserted by the source test. -/
def blit22Result : Grid2D Nat :=
  ⟨⟨⟨0, 0⟩, ⟨3, 3⟩⟩, [0, 0, 0, 0, 0, 0, 0, 0, 0, 0, 0, 1, 0, 0, 4, 5]⟩

/-- A source far away from `destZero4`: no overlap on either axis. -/
def srcFar : Grid2D Nat := ⟨⟨⟨10, 10⟩, ⟨13, 13⟩⟩, vals16⟩

/-- The source of test `grid_blit_from_2d_0_0`: a 4×4 grid of sevens at
offset (0,0). -/
def srcSeven4 : Grid2D Nat := ⟨⟨⟨0, 0⟩, ⟨3, 3⟩⟩, List.replicate 16 7⟩

/-- A 2×2×2 all-zero 3-D grid at offset (0,0,0). -/
def dest3Zero : Grid3D Nat := ⟨⟨⟨0, 0, 0⟩, ⟨1, 1, 1⟩⟩, List.replicate 8 0⟩

/-- A 2×2×2 3-D grid holding `1..8` at offset (0,0,0). -/
def src3Cube : Grid3D Nat := ⟨⟨⟨0, 0, 0⟩, ⟨1, 1, 1⟩⟩, [1, 2, 3, 4, 5, 6, 7, 8]⟩

/-- A 2×2×2 3-D grid far away from `dest3Zero`. -/
def src3Far : Grid3D Nat := ⟨⟨⟨9, 9, 9⟩, ⟨10, 10, 10⟩⟩, [1, 2, 3, 4, 5, 6, 7, 8]⟩

/-- A 2-axis box covering rows and columns `0..3`, in the arity-generic
model. -/
def boxN_0033 : GridBoundingBoxN := ⟨[(0, 3), (0, 3)]⟩

/-- A 2-axis box covering rows and columns `2..5`. -/
def boxN_2255 : GridBoundingBoxN := ⟨[(2, 5), (2, 5)]⟩

/-- A 2-axis box disjoint from `boxN_0033` on its first axis. -/
def boxN_disjoint : GridBoundingBoxN := ⟨[(5, 6), (0, 3)]⟩

/-- The spec's example stream: intervals `[A, A, A, B, B, C]` with tile
values `1..6` (`A`, `B`, `C` encoded as `0`, `1`, `2`). -/
def exTiles : List (Tile Nat Nat) :=
  [⟨0, 1⟩, ⟨0, 2⟩, ⟨0, 3⟩, ⟨1, 4⟩, ⟨1, 5⟩, ⟨2, 6⟩]

/-- The spec's example upstream: three batches of 10 bytes each. -/
def exBatches : List (List Nat) := [[10], [10], [10]]

/-- An upstream with one oversized batch (30 bytes against a 25-byte
budget). -/
def exBatchesBig : List (List Nat) := [[30], [10]]

/-- A no-data source at offset (2,2) with no-data value 9. -/
def ndAt22 : NoDataGrid2D Nat := ⟨⟨⟨2, 2⟩, ⟨5, 5⟩⟩, 9⟩

/-- A 1-D destination: cells `0..3`, all zero. -/
def dest1Zero : Grid1D Nat := ⟨⟨0, 3⟩, [0, 0, 0, 0]⟩

/-- A 1-D source: cells `2..5`, values `1..4`. -/
def src1At2 : Grid1D Nat := ⟨⟨2, 5⟩, [1, 2, 3, 4]⟩

/-! ## Properties of slice copies -/

theorem writeSlice_length {T : Type} (dst : List T) (start : Nat) (seg : List T)
    (h : start + seg.length ≤ dst.length) :
    (writeSlice dst start seg).length = dst.length := by
  simp only [writeSlice, List.length_append, List.length_take, List.length_drop]
  omega

theorem writeSlice_getElem_inside {T : Type} (dst : List T) (start : Nat) (seg : List T)
    (h : start + seg.length ≤ dst.length) (p : Nat) (hp1 : start ≤ p)
    (hp2 : p < start + seg.length) :
    (writeSlice dst start seg)[p]? = seg[p - start]? := by
  unfold writeSlice
  rw [List.append_assoc, List.getElem?_append_right (by rw [List.length_take]; omega),
    List.getElem?_append_left (by rw [List.length_take]; omega)]
  congr 1
  rw [List.length_take]
  omega

theorem writeSlice_getElem_outside {T : Type} (dst : List T) (start : Nat) (seg : List T)
    (h : start + seg.length ≤ dst.length) (p : Nat)
    (hp : p < start ∨ start + seg.length ≤ p) :
    (writeSlice dst start seg)[p]? = dst[p]? := by
  unfold writeSlice
  rw [List.append_assoc]
  rcases hp with hp | hp
  · rw [List.getElem?_append_left (by rw [List.length_take]; omega)]
    exact List.getElem?_take_of_lt hp
  · rw [List.getElem?_append_right (by rw [List.length_take]; omega),
      List.getElem?_append_right (by simp only [List.length_take]; omega),
      List.getElem?_drop]
    congr 1
    simp only [List.length_take]
    omega

theorem copyFromSlice_eq_some {T : Type} (dst : List T) (a len : Nat) (src : List T)
    (c : Nat) (ha : a + len ≤ dst.length) (hc : c + len ≤ src.length) :
    copyFromSlice dst a len src c = some (writeSlice dst a ((src.drop c).take len)) := by
  unfold copyFromSlice
  rw [if_pos ⟨ha, hc⟩]

theorem copyFromSlice_some_length {T : Type} {dst : List T} {a len : Nat} {src : List T}
    {c : Nat} {out : List T} (h : copyFromSlice dst a len src c = some out) :
    out.length = dst.length := by
  unfold copyFromSlice at h
  split at h
  · next hb =>
    cases h
    apply writeSlice_length
    simp only [List.length_take, List.length_drop]
    omega
  · exact absurd h (by simp)

theorem copyFromSlice_some_bounds {T : Type} {dst : List T} {a len : Nat} {src : List T}
    {c : Nat} {out : List T} (h : copyFromSlice dst a len src c = some out) :
    a + len ≤ dst.length ∧ c + len ≤ src.length := by
  unfold copyFromSlice at h
  split at h
  · next hb => exact hb
  · exact absurd h (by simp)

theorem copyFromSlice_getElem_inside {T : Type} {dst : List T} {a len : Nat}
    {src : List T} {c : Nat} {out : List T}
    (h : copyFromSlice dst a len src c = some out) (p : Nat) (hp1 : a ≤ p)
    (hp2 : p < a + len) :
    out[p]? = src[c + (p - a)]? := by
  obtain ⟨ha, hc⟩ := copyFromSlice_some_bounds h
  unfold copyFromSlice at h
  rw [if_pos ⟨ha, hc⟩] at h
  cases h
  have hseg : ((src.drop c).take len).length = len := by
    simp only [List.length_take, List.length_drop]
    omega
  rw [writeSlice_getElem_inside dst a _ (by rw [hseg]; omega) p hp1 (by rw [hseg]; omega)]
  rw [List.getElem?_take_of_lt (by omega), List.getElem?_drop]

theorem copyFromSlice_getElem_outside {T : Type} {dst : List T} {a len : Nat}
    {src : List T} {c : Nat} {out : List T}
    (h : copyFromSlice dst a len src c = some out) (p : Nat)
    (hp : p < a ∨ a + len ≤ p) :
    out[p]? = dst[p]? := by
  obtain ⟨ha, hc⟩ := copyFromSlice_some_bounds h
  unfold copyFromSlice at h
  rw [if_pos ⟨ha, hc⟩] at h
  cases h
  have hseg : ((src.drop c).take len).length = len := by
    simp only [List.length_take, List.length_drop]
    omega
  exact writeSlice_getElem_outside dst a _ (by rw [hseg]; omega) p (by rw [hseg]; omega)

/-! ## Row-major indexing arithmetic -/

/-- Membership of one row-major offset in a contiguous row segment, over `Int`:
inside a row-major layout of width `W`, the offset of `[y, x]` falls into the
segment of width `xSz` that starts at column `ox` of row `y0` exactly when
`y = y0` and `ox ≤ x < ox + xSz`.  Needs only that the `x` coordinates and the
segment stay inside the width. -/
theorem rowSegment_mem_iff (W minY minX y y0 x ox xSz : Int)
    (hx1 : minX ≤ x) (hx2 : x - minX < W)
    (hox : minX ≤ ox) (hoxW : ox - minX + xSz ≤ W) :
    ((y0 - minY) * W + (ox - minX) ≤ (y - minY) * W + (x - minX) ∧
        (y - minY) * W + (x - minX) < (y0 - minY) * W + (ox - minX) + xSz) ↔
      (y = y0 ∧ ox ≤ x ∧ x < ox + xSz) := by
  have hW : 0 ≤ W := by omega
  constructor
  · rintro ⟨h1, h2⟩
    rcases lt_trichotomy y y0 with hy | hy | hy
    · exfalso
      have hk : y - y0 ≤ -1 := by omega
      have : (y - y0) * W ≤ (-1) * W := by
        exact mul_le_mul_of_nonneg_right hk hW
      nlinarith [this]
    · refine ⟨hy, ?_, ?_⟩ <;> subst hy <;> nlinarith
    · exfalso
      have hk : 1 ≤ y - y0 := by omega
      have : 1 * W ≤ (y - y0) * W := by
        exact mul_le_mul_of_nonneg_right hk hW
      nlinarith [this]
  · rintro ⟨rfl, hx3, hx4⟩
    omega

namespace GridBoundingBox2D

theorem xSize_intCast (b : GridBoundingBox2D) (h : b.valid) :
    (b.xSize : Int) = b.maxIdx.x - b.minIdx.x + 1 :=
  Int.toNat_of_nonneg (by unfold valid at h; omega)

theorem ySize_intCast (b : GridBoundingBox2D) (h : b.valid) :
    (b.ySize : Int) = b.maxIdx.y - b.minIdx.y + 1 :=
  Int.toNat_of_nonneg (by unfold valid at h; omega)

theorem numElements_intCast (b : GridBoundingBox2D) :
    (b.numElements : Int) = (b.ySize : Int) * (b.xSize : Int) := by
  unfold numElements
  push_cast
  ring

/-- Nonnegativity and end bound of one row segment inside the row-major
buffer: the segment `[y0, ox .. ox+xSz)` of a valid box starts at a
nonnegative offset and ends no later than the number of cells. -/
theorem rowSegment_bounds (b : GridBoundingBox2D) (hb : b.valid) (y0 ox : Int)
    (xSz : Nat) (hy1 : b.minIdx.y ≤ y0) (hy2 : y0 ≤ b.maxIdx.y)
    (hox : b.minIdx.x ≤ ox) (hseg : ox + (xSz : Int) ≤ b.maxIdx.x + 1) :
    0 ≤ b.linearSpaceIndex y0 ox ∧
      b.linearSpaceIndex y0 ox + (xSz : Int) ≤ (b.numElements : Int) := by
  have hW := b.xSize_intCast hb
  have hH := b.ySize_intCast hb
  have hWpos : (1 : Int) ≤ (b.xSize : Int) := by
    unfold valid at hb; omega
  unfold linearSpaceIndex
  constructor
  · have h1 : 0 ≤ y0 - b.minIdx.y := by omega
    have h2 : (0 : Int) ≤ (b.xSize : Int) := by omega
    have := mul_nonneg h1 h2
    omega
  · rw [numElements_intCast]
    have h1 : y0 - b.minIdx.y ≤ b.maxIdx.y - b.minIdx.y := by omega
    have h2 := mul_le_mul_of_nonneg_right h1 (by omega : (0 : Int) ≤ (b.xSize : Int))
    nlinarith [h2]

theorem linearSpaceIndexNat_intCast (b : GridBoundingBox2D) (y x : Int)
    (h : 0 ≤ b.linearSpaceIndex y x) :
    ((b.linearSpaceIndexNat y x : Nat) : Int) = b.linearSpaceIndex y x :=
  Int.toNat_of_nonneg h

/-- Nonnegativity of the linear offset of an index inside a valid box. -/
theorem linearSpaceIndex_nonneg (b : GridBoundingBox2D) (hb : b.valid) (y x : Int)
    (hc : b.contains y x) : 0 ≤ b.linearSpaceIndex y x := by
  obtain ⟨h1, h2, h3, h4⟩ := hc
  exact (b.rowSegment_bounds hb y x 0 h1 h2 h3 (by omega)).1

theorem intersection_eq_some {a b inter : GridBoundingBox2D}
    (h : a.intersection b = some inter) :
    inter.minIdx.y = max a.minIdx.y b.minIdx.y ∧
      inter.minIdx.x = max a.minIdx.x b.minIdx.x ∧
      inter.maxIdx.y = min a.maxIdx.y b.maxIdx.y ∧
      inter.maxIdx.x = min a.maxIdx.x b.maxIdx.x ∧
      max a.minIdx.y b.minIdx.y ≤ min a.maxIdx.y b.maxIdx.y ∧
      max a.minIdx.x b.minIdx.x ≤ min a.maxIdx.x b.maxIdx.x := by
  unfold intersection at h
  simp only at h
  split at h
  · next hcond =>
    cases h
    exact ⟨rfl, rfl, rfl, rfl, hcond.1, hcond.2⟩
  · exact absurd h (by simp)

theorem intersection_valid {a b inter : GridBoundingBox2D}
    (h : a.intersection b = some inter) : inter.valid := by
  obtain ⟨h1, h2, h3, h4, h5, h6⟩ := intersection_eq_some h
  unfold valid
  omega

theorem contains_intersection {a b inter : GridBoundingBox2D}
    (h : a.intersection b = some inter) (y x : Int) :
    inter.contains y x ↔ a.contains y x ∧ b.contains y x := by
  obtain ⟨h1, h2, h3, h4, _, _⟩ := intersection_eq_some h
  unfold contains
  rw [h1, h2, h3, h4]
  omega

end GridBoundingBox2D

/-- Full characterization of the 2-D row-copy loop: starting at row `y0` with
`n` rows to go, over a column window `[ox, ox + xSz)` that lies inside both
boxes, the loop succeeds, preserves the buffer length, rewrites exactly the
cells of the processed window with the source cells at the same grid index,
and leaves every other cell of the destination untouched. -/
theorem blitRows2D_spec {T : Type} (B S : GridBoundingBox2D) (otherData : List T)
    (ox : Int) (xSz : Nat) (hBval : B.valid) (hSval : S.valid)
    (hBox1 : B.minIdx.x ≤ ox) (hBox2 : ox + (xSz : Int) ≤ B.maxIdx.x + 1)
    (hSox1 : S.minIdx.x ≤ ox) (hSox2 : ox + (xSz : Int) ≤ S.maxIdx.x + 1)
    (hother : otherData.length = S.numElements) :
    ∀ (n : Nat) (y0 : Int) (data : List T),
      data.length = B.numElements →
      B.minIdx.y ≤ y0 → y0 + (n : Int) ≤ B.maxIdx.y + 1 →
      S.minIdx.y ≤ y0 → y0 + (n : Int) ≤ S.maxIdx.y + 1 →
      ∃ out, blitRows2D B S otherData ox xSz y0 n data = some out ∧
        out.length = data.length ∧
        ∀ y x : Int, B.contains y x →
          ((y0 ≤ y ∧ y < y0 + (n : Int) ∧ ox ≤ x ∧ x < ox + (xSz : Int)) →
            out[B.linearSpaceIndexNat y x]? = otherData[S.linearSpaceIndexNat y x]?) ∧
          (¬(y0 ≤ y ∧ y < y0 + (n : Int) ∧ ox ≤ x ∧ x < ox + (xSz : Int)) →
            out[B.linearSpaceIndexNat y x]? = data[B.linearSpaceIndexNat y x]?) := by
  intro n
  induction n with
  | zero =>
    intro y0 data hdata _ _ _ _
    refine ⟨data, rfl, rfl, fun y x _ => ⟨fun h => absurd h (by push_cast; omega), fun _ => rfl⟩⟩
  | succ n ih =>
    intro y0 data hdata hBy1 hBy2 hSy1 hSy2
    have hy0B : y0 ≤ B.maxIdx.y := by push_cast at hBy2; omega
    have hy0S : y0 ≤ S.maxIdx.y := by push_cast at hSy2; omega
    obtain ⟨hBnn, hBend⟩ := B.rowSegment_bounds hBval y0 ox xSz hBy1 hy0B hBox1 hBox2
    obtain ⟨hSnn, hSend⟩ := S.rowSegment_bounds hSval y0 ox xSz hSy1 hy0S hSox1 hSox2
    have hBcast := B.linearSpaceIndexNat_intCast y0 ox hBnn
    have hScast := S.linearSpaceIndexNat_intCast y0 ox hSnn
    have hBbound : B.linearSpaceIndexNat y0 ox + xSz ≤ data.length := by
      rw [hdata]; omega
    have hSbound : S.linearSpaceIndexNat y0 ox + xSz ≤ otherData.length := by
      rw [hother]; omega
    have hcopy :=
      copyFromSlice_eq_some data (B.linearSpaceIndexNat y0 ox) xSz otherData
        (S.linearSpaceIndexNat y0 ox) hBbound hSbound
    set data1 :=
      writeSlice data (B.linearSpaceIndexNat y0 ox)
        ((otherData.drop (S.linearSpaceIndexNat y0 ox)).take xSz) with hdata1
    have hlen1 : data1.length = data.length := copyFromSlice_some_length hcopy
    have hstep :
        blitRows2D B S otherData ox xSz y0 (n + 1) data =
          blitRows2D B S otherData ox xSz (y0 + 1) n data1 := by
      rw [blitRows2D, hcopy]
    obtain ⟨out, hout, hlen, hchar⟩ :=
      ih (y0 + 1) data1 (hlen1.trans hdata) (by omega)
        (by push_cast at hBy2 ⊢; omega) (by omega) (by push_cast at hSy2 ⊢; omega)
    refine ⟨out, hstep.trans hout, hlen.trans hlen1, ?_⟩
    intro y x hc
    have hcB := hc
    unfold GridBoundingBox2D.contains at hcB
    have hWx := B.xSize_intCast hBval
    have hpnn := B.linearSpaceIndex_nonneg hBval y x hc
    have hpcast := B.linearSpaceIndexNat_intCast y x hpnn
    have hseg :=
      rowSegment_mem_iff (B.xSize : Int) B.minIdx.y B.minIdx.x y y0 x ox (xSz : Int)
        (by omega) (by omega) hBox1 (by omega)
    have hlinB_yx : B.linearSpaceIndex y x =
        (y - B.minIdx.y) * (B.xSize : Int) + (x - B.minIdx.x) := rfl
    have hlinB_row : B.linearSpaceIndex y0 ox =
        (y0 - B.minIdx.y) * (B.xSize : Int) + (ox - B.minIdx.x) := rfl
    obtain ⟨hin, hnotin⟩ := hchar y x hc
    constructor
    · rintro ⟨h1, h2, h3, h4⟩
      by_cases hy : y0 + 1 ≤ y
      · exact hin ⟨hy, by push_cast at h2 ⊢; omega, h3, h4⟩
      · have hyy : y = y0 := by omega
        rw [hnotin (by omega)]
        have hin_seg : B.linearSpaceIndexNat y0 ox ≤ B.linearSpaceIndexNat y x ∧
            B.linearSpaceIndexNat y x < B.linearSpaceIndexNat y0 ox + xSz := by
          have := hseg.mpr ⟨hyy, h3, h4⟩
          rw [← hlinB_yx, ← hlinB_row] at this
          omega
        rw [copyFromSlice_getElem_inside hcopy _ hin_seg.1 hin_seg.2]
        congr 1
        have hScont : S.contains y x := by
          unfold GridBoundingBox2D.contains
          omega
        have hSyx_nn := S.linearSpaceIndex_nonneg hSval y x hScont
        have hSyx_cast := S.linearSpaceIndexNat_intCast y x hSyx_nn
        have hSshift : S.linearSpaceIndex y x = S.linearSpaceIndex y0 ox + (x - ox) := by
          subst hyy
          unfold GridBoundingBox2D.linearSpaceIndex
          ring
        have hBshift : B.linearSpaceIndex y x = B.linearSpaceIndex y0 ox + (x - ox) := by
          subst hyy
          unfold GridBoundingBox2D.linearSpaceIndex
          ring
        omega
    · intro hnot
      by_cases hy : (y0 + 1 ≤ y ∧ y < y0 + 1 + (n : Int) ∧ ox ≤ x ∧ x < ox + (xSz : Int))
      · exact absurd (by push_cast at hy ⊢; omega : y0 ≤ y ∧ y < y0 + ((n + 1 : Nat) : Int) ∧
          ox ≤ x ∧ x < ox + (xSz : Int)) hnot
      · rw [hnotin hy]
        apply copyFromSlice_getElem_outside hcopy
        by_contra hcon
        push_neg at hcon
        obtain ⟨hc1, hc2⟩ := hcon
        have hIntSeg : (y0 - B.minIdx.y) * (B.xSize : Int) + (ox - B.minIdx.x) ≤
            (y - B.minIdx.y) * (B.xSize : Int) + (x - B.minIdx.x) ∧
            (y - B.minIdx.y) * (B.xSize : Int) + (x - B.minIdx.x) <
              (y0 - B.minIdx.y) * (B.xSize : Int) + (ox - B.minIdx.x) + (xSz : Int) := by
          rw [← hlinB_yx, ← hlinB_row]
          omega
        obtain ⟨hyy, hx3, hx4⟩ := hseg.mp hIntSeg
        exact hnot ⟨by omega, by push_cast; omega, hx3, hx4⟩

/-- Top-level characterization of the dense 2-D blit on well-formed grids with
overlapping boxes: it succeeds, keeps the destination's box and buffer length,
writes every cell of the intersection from the source at the same grid index,
and leaves every other cell untouched. -/
theorem Grid2D.grid_blit_from_spec {T : Type} (dest src : Grid2D T)
    (hd : dest.wellFormed) (hs : src.wellFormed) {inter : GridBoundingBox2D}
    (hint : dest.bbox.intersection src.bbox = some inter) :
    ∃ out, dest.grid_blit_from src = some out ∧
      out.bbox = dest.bbox ∧
      out.data.length = dest.data.length ∧
      ∀ y x : Int,
        (inter.contains y x → out.getCell y x = src.getCell y x) ∧
        (dest.bbox.contains y x → ¬inter.contains y x →
          out.getCell y x = dest.getCell y x) := by
  obtain ⟨hdval, hdlen⟩ := hd
  obtain ⟨hsval, hslen⟩ := hs
  have hival := GridBoundingBox2D.intersection_valid hint
  obtain ⟨hm1, hm2, hm3, hm4, hm5, hm6⟩ := GridBoundingBox2D.intersection_eq_some hint
  have hxsz := inter.xSize_intCast hival
  have hysz := inter.ySize_intCast hival
  obtain ⟨out, hout, hlen, hchar⟩ :=
    blitRows2D_spec dest.bbox src.bbox src.data inter.minIdx.x inter.xSize hdval hsval
      (by omega) (by omega) (by omega) (by omega) hslen
      inter.ySize inter.minIdx.y dest.data hdlen
      (by omega) (by omega) (by omega) (by omega)
  refine ⟨⟨dest.bbox, out⟩, ?_, rfl, hlen, ?_⟩
  · unfold Grid2D.grid_blit_from
    rw [hint]
    dsimp only
    rw [hout]
    rfl
  · intro y x
    constructor
    · intro hcI
      have hcD : dest.bbox.contains y x :=
        ((GridBoundingBox2D.contains_intersection hint y x).mp hcI).1
      have hcIc := hcI
      unfold GridBoundingBox2D.contains at hcIc
      exact (hchar y x hcD).1 (by omega)
    · intro hcD hnI
      have hnIc : ¬(inter.minIdx.y ≤ y ∧ y ≤ inter.maxIdx.y ∧
          inter.minIdx.x ≤ x ∧ x ≤ inter.maxIdx.x) := hnI
      exact (hchar y x hcD).2 (by omega)

/-- Any successful run of the 2-D row loop preserves the buffer length. -/
theorem blitRows2D_some_length {T : Type} (B S : GridBoundingBox2D) (otherData : List T)
    (ox : Int) (xSz : Nat) :
    ∀ (n : Nat) (y0 : Int) (data out : List T),
      blitRows2D B S otherData ox xSz y0 n data = some out → out.length = data.length := by
  intro n
  induction n with
  | zero =>
    intro y0 data out h
    cases h
    rfl
  | succ n ih =>
    intro y0 data out h
    rw [blitRows2D] at h
    cases hcopy : copyFromSlice data (B.linearSpaceIndexNat y0 ox) xSz otherData
        (S.linearSpaceIndexNat y0 ox) with
    | none => rw [hcopy] at h; cases h
    | some data1 =>
      rw [hcopy] at h
      exact (ih (y0 + 1) data1 out h).trans (copyFromSlice_some_length hcopy)

/-- A successful 2-D blit keeps the destination's bounding box and buffer
length (no resize, no re-offset), with no well-formedness assumption. -/
theorem Grid2D.grid_blit_from_frame {T : Type} (dest src : Grid2D T) (out : Grid2D T)
    (h : dest.grid_blit_from src = some out) :
    out.bbox = dest.bbox ∧ out.data.length = dest.data.length := by
  unfold Grid2D.grid_blit_from at h
  cases hint : dest.bbox.intersection src.bbox with
  | none =>
    rw [hint] at h
    cases h
    exact ⟨rfl, rfl⟩
  | some inter =>
    rw [hint] at h
    dsimp only at h
    cases hrows : blitRows2D dest.bbox src.bbox src.data inter.minIdx.x inter.xSize
        inter.minIdx.y inter.ySize dest.data with
    | none => rw [hrows] at h; cases h
    | some updated =>
      rw [hrows] at h
      cases h
      exact ⟨rfl, blitRows2D_some_length _ _ _ _ _ _ _ _ _ hrows⟩

/-- A 2-D blit of non-overlapping boxes is a no-op, not an error. -/
theorem Grid2D.grid_blit_from_no_overlap {T : Type} (dest src : Grid2D T)
    (h : dest.bbox.intersection src.bbox = none) :
    dest.grid_blit_from src = some dest := by
  unfold Grid2D.grid_blit_from
  rw [h]

namespace GridBoundingBox3D

theorem xSize_intCast3 (b : GridBoundingBox3D) (h : b.valid) :
    (b.xSize : Int) = b.maxIdx.x - b.minIdx.x + 1 :=
  Int.toNat_of_nonneg (by unfold valid at h; omega)

theorem ySize_intCast3 (b : GridBoundingBox3D) (h : b.valid) :
    (b.ySize : Int) = b.maxIdx.y - b.minIdx.y + 1 :=
  Int.toNat_of_nonneg (by unfold valid at h; omega)

theorem zSize_intCast3 (b : GridBoundingBox3D) (h : b.valid) :
    (b.zSize : Int) = b.maxIdx.z - b.minIdx.z + 1 :=
  Int.toNat_of_nonneg (by unfold valid at h; omega)

theorem numElements_intCast3 (b : GridBoundingBox3D) :
    (b.numElements : Int) = (b.zSize : Int) * (b.ySize : Int) * (b.xSize : Int) := by
  unfold numElements
  push_cast
  ring

/-- Nonnegativity and end bound of one row segment of a valid 3-D box inside
its row-major buffer. -/
theorem rowSegment_bounds3 (b : GridBoundingBox3D) (hb : b.valid) (z y ox : Int)
    (xSz : Nat) (hz1 : b.minIdx.z ≤ z) (hz2 : z ≤ b.maxIdx.z)
    (hy1 : b.minIdx.y ≤ y) (hy2 : y ≤ b.maxIdx.y)
    (hox : b.minIdx.x ≤ ox) (hseg : ox + (xSz : Int) ≤ b.maxIdx.x + 1) :
    0 ≤ b.linearSpaceIndex z y ox ∧
      b.linearSpaceIndex z y ox + (xSz : Int) ≤ (b.numElements : Int) := by
  have hW := b.xSize_intCast3 hb
  have hH := b.ySize_intCast3 hb
  have hZ := b.zSize_intCast3 hb
  have hbv := hb
  unfold valid at hbv
  unfold linearSpaceIndex
  have hRlo : 0 ≤ (z - b.minIdx.z) * (b.ySize : Int) + (y - b.minIdx.y) := by
    have := mul_nonneg (by omega : (0 : Int) ≤ z - b.minIdx.z)
      (by omega : (0 : Int) ≤ (b.ySize : Int))
    omega
  have hRhi : (z - b.minIdx.z) * (b.ySize : Int) + (y - b.minIdx.y) ≤
      (b.zSize : Int) * (b.ySize : Int) - 1 := by
    have h1 := mul_le_mul_of_nonneg_right
      (by omega : z - b.minIdx.z ≤ (b.zSize : Int) - 1)
      (by omega : (0 : Int) ≤ (b.ySize : Int))
    nlinarith [h1]
  constructor
  · have := mul_nonneg hRlo (by omega : (0 : Int) ≤ (b.xSize : Int))
    omega
  · rw [numElements_intCast3]
    have h2 := mul_le_mul_of_nonneg_right hRhi
      (by omega : (0 : Int) ≤ (b.xSize : Int))
    nlinarith [h2]

theorem linearSpaceIndexNat_intCast3 (b : GridBoundingBox3D) (z y x : Int)
    (h : 0 ≤ b.linearSpaceIndex z y x) :
    ((b.linearSpaceIndexNat z y x : Nat) : Int) = b.linearSpaceIndex z y x :=
  Int.toNat_of_nonneg h

theorem intersection_eq_some3 {a b inter : GridBoundingBox3D}
    (h : a.intersection b = some inter) :
    inter.minIdx.z = max a.minIdx.z b.minIdx.z ∧
      inter.minIdx.y = max a.minIdx.y b.minIdx.y ∧
      inter.minIdx.x = max a.minIdx.x b.minIdx.x ∧
      inter.maxIdx.z = min a.maxIdx.z b.maxIdx.z ∧
      inter.maxIdx.y = min a.maxIdx.y b.maxIdx.y ∧
      inter.maxIdx.x = min a.maxIdx.x b.maxIdx.x ∧
      max a.minIdx.z b.minIdx.z ≤ min a.maxIdx.z b.maxIdx.z ∧
      max a.minIdx.y b.minIdx.y ≤ min a.maxIdx.y b.maxIdx.y ∧
      max a.minIdx.x b.minIdx.x ≤ min a.maxIdx.x b.maxIdx.x := by
  unfold intersection at h
  simp only at h
  split at h
  · next hcond =>
    cases h
    exact ⟨rfl, rfl, rfl, rfl, rfl, rfl, hcond.1, hcond.2.1, hcond.2.2⟩
  · exact absurd h (by simp)

theorem intersection_valid3 {a b inter : GridBoundingBox3D}
    (h : a.intersection b = some inter) : inter.valid := by
  obtain ⟨h1, h2, h3, h4, h5, h6, h7, h8, h9⟩ := intersection_eq_some3 h
  unfold valid
  omega

end GridBoundingBox3D

/-- The inner 3-D row loop succeeds and preserves the buffer length when the
column window and every processed row lie inside both boxes. -/
theorem blitRows3D_isSome {T : Type} (B S : GridBoundingBox3D) (otherData : List T)
    (ox : Int) (xSz : Nat) (z : Int) (hBval : B.valid) (hSval : S.valid)
    (hBz1 : B.minIdx.z ≤ z) (hBz2 : z ≤ B.maxIdx.z)
    (hSz1 : S.minIdx.z ≤ z) (hSz2 : z ≤ S.maxIdx.z)
    (hBox1 : B.minIdx.x ≤ ox) (hBox2 : ox + (xSz : Int) ≤ B.maxIdx.x + 1)
    (hSox1 : S.minIdx.x ≤ ox) (hSox2 : ox + (xSz : Int) ≤ S.maxIdx.x + 1)
    (hother : otherData.length = S.numElements) :
    ∀ (n : Nat) (y0 : Int) (data : List T),
      data.length = B.numElements →
      B.minIdx.y ≤ y0 → y0 + (n : Int) ≤ B.maxIdx.y + 1 →
      S.minIdx.y ≤ y0 → y0 + (n : Int) ≤ S.maxIdx.y + 1 →
      ∃ out, blitRows3D B S otherData ox xSz z y0 n data = some out ∧
        out.length = data.length := by
  intro n
  induction n with
  | zero => exact fun y0 data hdata _ _ _ _ => ⟨data, rfl, rfl⟩
  | succ n ih =>
    intro y0 data hdata hBy1 hBy2 hSy1 hSy2
    have hy0B : y0 ≤ B.maxIdx.y := by push_cast at hBy2; omega
    have hy0S : y0 ≤ S.maxIdx.y := by push_cast at hSy2; omega
    obtain ⟨hBnn, hBend⟩ :=
      B.rowSegment_bounds3 hBval z y0 ox xSz hBz1 hBz2 hBy1 hy0B hBox1 hBox2
    obtain ⟨hSnn, hSend⟩ :=
      S.rowSegment_bounds3 hSval z y0 ox xSz hSz1 hSz2 hSy1 hy0S hSox1 hSox2
    have hBcast := B.linearSpaceIndexNat_intCast3 z y0 ox hBnn
    have hScast := S.linearSpaceIndexNat_intCast3 z y0 ox hSnn
    have hBbound : B.linearSpaceIndexNat z y0 ox + xSz ≤ data.length := by
      rw [hdata]; omega
    have hSbound : S.linearSpaceIndexNat z y0 ox + xSz ≤ otherData.length := by
      rw [hother]; omega
    have hcopy :=
      copyFromSlice_eq_some data (B.linearSpaceIndexNat z y0 ox) xSz otherData
        (S.linearSpaceIndexNat z y0 ox) hBbound hSbound
    obtain ⟨out, hout, hlen⟩ :=
      ih (y0 + 1)
        (writeSlice data (B.linearSpaceIndexNat z y0 ox)
          ((otherData.drop (S.linearSpaceIndexNat z y0 ox)).take xSz))
        ((copyFromSlice_some_length hcopy).trans hdata) (by omega)
        (by push_cast at hBy2 ⊢; omega) (by omega) (by push_cast at hSy2 ⊢; omega)
    refine ⟨out, ?_, hlen.trans (copyFromSlice_some_length hcopy)⟩
    rw [blitRows3D, hcopy]
    exact hout

/-- The outer 3-D plane loop succeeds and preserves the buffer length when the
whole processed block lies inside both boxes. -/
theorem blitPlanes3D_isSome {T : Type} (B S : GridBoundingBox3D) (otherData : List T)
    (oy : Int) (ySz : Nat) (ox : Int) (xSz : Nat) (hBval : B.valid) (hSval : S.valid)
    (hBoy1 : B.minIdx.y ≤ oy) (hBoy2 : oy + (ySz : Int) ≤ B.maxIdx.y + 1)
    (hSoy1 : S.minIdx.y ≤ oy) (hSoy2 : oy + (ySz : Int) ≤ S.maxIdx.y + 1)
    (hBox1 : B.minIdx.x ≤ ox) (hBox2 : ox + (xSz : Int) ≤ B.maxIdx.x + 1)
    (hSox1 : S.minIdx.x ≤ ox) (hSox2 : ox + (xSz : Int) ≤ S.maxIdx.x + 1)
    (hother : otherData.length = S.numElements) :
    ∀ (n : Nat) (z0 : Int) (data : List T),
      data.length = B.numElements →
      B.minIdx.z ≤ z0 → z0 + (n : Int) ≤ B.maxIdx.z + 1 →
      S.minIdx.z ≤ z0 → z0 + (n : Int) ≤ S.maxIdx.z + 1 →
      ∃ out, blitPlanes3D B S otherData oy ySz ox xSz z0 n data = some out ∧
        out.length = data.length := by
  intro n
  induction n with
  | zero => exact fun z0 data hdata _ _ _ _ => ⟨data, rfl, rfl⟩
  | succ n ih =>
    intro z0 data hdata hBz1 hBz2 hSz1 hSz2
    have hz0B : z0 ≤ B.maxIdx.z := by push_cast at hBz2; omega
    have hz0S : z0 ≤ S.maxIdx.z := by push_cast at hSz2; omega
    obtain ⟨mid, hmid, hmidlen⟩ :=
      blitRows3D_isSome B S otherData ox xSz z0 hBval hSval hBz1 hz0B hSz1 hz0S
        hBox1 hBox2 hSox1 hSox2 hother ySz oy data hdata hBoy1 hBoy2 hSoy1 hSoy2
    obtain ⟨out, hout, hlen⟩ :=
      ih (z0 + 1) mid (hmidlen.trans hdata) (by omega)
        (by push_cast at hBz2 ⊢; omega) (by omega) (by push_cast at hSz2 ⊢; omega)
    refine ⟨out, ?_, hlen.trans hmidlen⟩
    rw [blitPlanes3D, hmid]
    exact hout

/-- A well-formed 3-D blit succeeds (never panics), keeping the destination's
box and buffer length. -/
theorem Grid3D.grid_blit_from_isSome3 {T : Type} (dest src : Grid3D T)
    (hd : dest.wellFormed) (hs : src.wellFormed) :
    ∃ out, dest.grid_blit_from src = some out ∧ out.bbox = dest.bbox ∧
      out.data.length = dest.data.length := by
  obtain ⟨hdval, hdlen⟩ := hd
  obtain ⟨hsval, hslen⟩ := hs
  unfold Grid3D.grid_blit_from
  cases hint : dest.bbox.intersection src.bbox with
  | none => exact ⟨dest, rfl, rfl, rfl⟩
  | some inter =>
    dsimp only
    have hival := GridBoundingBox3D.intersection_valid3 hint
    obtain ⟨h1, h2, h3, h4, h5, h6, h7, h8, h9⟩ :=
      GridBoundingBox3D.intersection_eq_some3 hint
    have hxsz := inter.xSize_intCast3 hival
    have hysz := inter.ySize_intCast3 hival
    have hzsz := inter.zSize_intCast3 hival
    obtain ⟨out, hout, hlen⟩ :=
      blitPlanes3D_isSome dest.bbox src.bbox src.data inter.minIdx.y inter.ySize
        inter.minIdx.x inter.xSize hdval hsval (by omega) (by omega) (by omega)
        (by omega) (by omega) (by omega) (by omega) (by omega) hslen
        inter.zSize inter.minIdx.z dest.data hdlen (by omega) (by omega) (by omega)
        (by omega)
    exact ⟨⟨dest.bbox, out⟩, by rw [hout]; rfl, rfl, hlen⟩

/-- Any successful run of the 3-D row loop preserves the buffer length. -/
theorem blitRows3D_some_length {T : Type} (B S : GridBoundingBox3D) (otherData : List T)
    (ox : Int) (xSz : Nat) (z : Int) :
    ∀ (n : Nat) (y0 : Int) (data out : List T),
      blitRows3D B S otherData ox xSz z y0 n data = some out →
        out.length = data.length := by
  intro n
  induction n with
  | zero =>
    intro y0 data out h
    cases h
    rfl
  | succ n ih =>
    intro y0 data out h
    rw [blitRows3D] at h
    cases hcopy : copyFromSlice data (B.linearSpaceIndexNat z y0 ox) xSz otherData
        (S.linearSpaceIndexNat z y0 ox) with
    | none => rw [hcopy] at h; cases h
    | some data1 =>
      rw [hcopy] at h
      exact (ih (y0 + 1) data1 out h).trans (copyFromSlice_some_length hcopy)

/-- Any successful run of the 3-D plane loop preserves the buffer length. -/
theorem blitPlanes3D_some_length {T : Type} (B S : GridBoundingBox3D)
    (otherData : List T) (oy : Int) (ySz : Nat) (ox : Int) (xSz : Nat) :
    ∀ (n : Nat) (z0 : Int) (data out : List T),
      blitPlanes3D B S otherData oy ySz ox xSz z0 n data = some out →
        out.length = data.length := by
  intro n
  induction n with
  | zero =>
    intro z0 data out h
    cases h
    rfl
  | succ n ih =>
    intro z0 data out h
    rw [blitPlanes3D] at h
    cases hmid : blitRows3D B S otherData ox xSz z0 oy ySz data with
    | none => rw [hmid] at h; cases h
    | some data1 =>
      rw [hmid] at h
      exact (ih (z0 + 1) data1 out h).trans
        (blitRows3D_some_length B S otherData ox xSz z0 ySz oy data data1 hmid)

/-- A successful 3-D blit keeps the destination's bounding box and buffer
length, with no well-formedness assumption. -/
theorem Grid3D.grid_blit_from_frame3 {T : Type} (dest src : Grid3D T) (out : Grid3D T)
    (h : dest.grid_blit_from src = some out) :
    out.bbox = dest.bbox ∧ out.data.length = dest.data.length := by
  unfold Grid3D.grid_blit_from at h
  cases hint : dest.bbox.intersection src.bbox with
  | none =>
    rw [hint] at h
    cases h
    exact ⟨rfl, rfl⟩
  | some inter =>
    rw [hint] at h
    dsimp only at h
    cases hrows : blitPlanes3D dest.bbox src.bbox src.data inter.minIdx.y inter.ySize
        inter.minIdx.x inter.xSize inter.minIdx.z inter.zSize dest.data with
    | none => rw [hrows] at h; cases h
    | some updated =>
      rw [hrows] at h
      cases h
      exact ⟨rfl, blitPlanes3D_some_length _ _ _ _ _ _ _ _ _ _ _ hrows⟩

/-- A 3-D blit of non-overlapping boxes is a no-op, not an error. -/
theorem Grid3D.grid_blit_from_no_overlap3 {T : Type} (dest src : Grid3D T)
    (h : dest.bbox.intersection src.bbox = none) :
    dest.grid_blit_from src = some dest := by
  unfold Grid3D.grid_blit_from
  rw [h]

namespace GridBoundingBox1D

theorem axisSize_intCast (b : GridBoundingBox1D) (h : b.valid) :
    (b.axisSize : Int) = b.maxIdx - b.minIdx + 1 :=
  Int.toNat_of_nonneg (by unfold valid at h; omega)

theorem intersection_eq_some1 {a b inter : GridBoundingBox1D}
    (h : a.intersection b = some inter) :
    inter.minIdx = max a.minIdx b.minIdx ∧ inter.maxIdx = min a.maxIdx b.maxIdx ∧
      max a.minIdx b.minIdx ≤ min a.maxIdx b.maxIdx := by
  unfold intersection at h
  simp only at h
  split at h
  · next hcond =>
    cases h
    exact ⟨rfl, rfl, hcond⟩
  · exact absurd h (by simp)

end GridBoundingBox1D

/-- A well-formed 1-D blit succeeds (never panics), keeping the destination's
box and buffer length. -/
theorem Grid1D.grid_blit_from_isSome1 {T : Type} (dest src : Grid1D T)
    (hd : dest.wellFormed) (hs : src.wellFormed) :
    ∃ out, dest.grid_blit_from src = some out ∧ out.bbox = dest.bbox ∧
      out.data.length = dest.data.length := by
  obtain ⟨hdval, hdlen⟩ := hd
  obtain ⟨hsval, hslen⟩ := hs
  unfold Grid1D.grid_blit_from
  cases hint : dest.bbox.intersection src.bbox with
  | none => exact ⟨dest, rfl, rfl, rfl⟩
  | some inter =>
    dsimp only
    obtain ⟨h1, h2, h3⟩ := GridBoundingBox1D.intersection_eq_some1 hint
    have hisz : (inter.axisSize : Int) = inter.maxIdx - inter.minIdx + 1 :=
      inter.axisSize_intCast (by unfold GridBoundingBox1D.valid; omega)
    have hdsz := dest.bbox.axisSize_intCast hdval
    have hssz := src.bbox.axisSize_intCast hsval
    have hdstart : ((dest.bbox.linearSpaceIndexNat inter.minIdx : Nat) : Int) =
        inter.minIdx - dest.bbox.minIdx :=
      Int.toNat_of_nonneg (by omega)
    have hsstart : ((src.bbox.linearSpaceIndexNat inter.minIdx : Nat) : Int) =
        inter.minIdx - src.bbox.minIdx :=
      Int.toNat_of_nonneg (by omega)
    have hdbound : dest.bbox.linearSpaceIndexNat inter.minIdx + inter.axisSize ≤
        dest.data.length := by
      rw [hdlen]; omega
    have hsbound : src.bbox.linearSpaceIndexNat inter.minIdx + inter.axisSize ≤
        src.data.length := by
      rw [hslen]; omega
    have hcopy :=
      copyFromSlice_eq_some dest.data (dest.bbox.linearSpaceIndexNat inter.minIdx)
        inter.axisSize src.data (src.bbox.linearSpaceIndexNat inter.minIdx)
        hdbound hsbound
    rw [hcopy]
    exact ⟨_, rfl, rfl, copyFromSlice_some_length hcopy⟩

namespace GridBoundingBox2D

/-- Distinct in-box indices map to distinct linear offsets. -/
theorem linearSpaceIndexNat_inj (b : GridBoundingBox2D) (hb : b.valid)
    {y1 x1 y2 x2 : Int} (h1 : b.contains y1 x1) (h2 : b.contains y2 x2)
    (hne : ¬(y1 = y2 ∧ x1 = x2)) :
    b.linearSpaceIndexNat y1 x1 ≠ b.linearSpaceIndexNat y2 x2 := by
  intro heq
  have hc1 := h1
  have hc2 := h2
  unfold contains at hc1 hc2
  have hW := b.xSize_intCast hb
  have hn1 := b.linearSpaceIndex_nonneg hb y1 x1 h1
  have hn2 := b.linearSpaceIndex_nonneg hb y2 x2 h2
  have hcast1 := b.linearSpaceIndexNat_intCast y1 x1 hn1
  have hcast2 := b.linearSpaceIndexNat_intCast y2 x2 hn2
  have hseg :=
    rowSegment_mem_iff (b.xSize : Int) b.minIdx.y b.minIdx.x y1 y2 x1 x2 1
      (by omega) (by omega) (by omega) (by omega)
  have hlin1 : b.linearSpaceIndex y1 x1 =
      (y1 - b.minIdx.y) * (b.xSize : Int) + (x1 - b.minIdx.x) := rfl
  have hlin2 : b.linearSpaceIndex y2 x2 =
      (y2 - b.minIdx.y) * (b.xSize : Int) + (x2 - b.minIdx.x) := rfl
  obtain ⟨hy, hx, hx'⟩ := hseg.mp (by rw [← hlin1, ← hlin2]; omega)
  exact hne ⟨hy, by omega⟩

/-- The linear offset of an in-box index is below the number of cells. -/
theorem linearSpaceIndexNat_lt (b : GridBoundingBox2D) (hb : b.valid)
    {y x : Int} (h : b.contains y x) :
    b.linearSpaceIndexNat y x < b.numElements := by
  have hc := h
  unfold contains at hc
  obtain ⟨hnn, hend⟩ := b.rowSegment_bounds hb y x 1 (by omega) (by omega)
    (by omega) (by omega)
  have hcast := b.linearSpaceIndexNat_intCast y x hnn
  omega

end GridBoundingBox2D

/-- The element-by-element column loop of the no-data blit: it keeps the box
and buffer length, writes the no-data value into the processed cells of row
`y`, and leaves all other cells untouched. -/
theorem blitNoDataCols_spec {T : Type} (other : NoDataGrid2D T) (y : Int) :
    ∀ (n : Nat) (x0 : Int) (g : Grid2D T),
      g.bbox.valid → g.data.length = g.bbox.numElements →
      g.bbox.minIdx.y ≤ y → y ≤ g.bbox.maxIdx.y →
      g.bbox.minIdx.x ≤ x0 → x0 + (n : Int) ≤ g.bbox.maxIdx.x + 1 →
      (blitNoDataCols other y x0 n g).bbox = g.bbox ∧
        (blitNoDataCols other y x0 n g).data.length = g.data.length ∧
        ∀ y1 x1 : Int, g.bbox.contains y1 x1 →
          ((y1 = y ∧ x0 ≤ x1 ∧ x1 < x0 + (n : Int)) →
            (blitNoDataCols other y x0 n g).getCell y1 x1 = some other.noDataValue) ∧
          (¬(y1 = y ∧ x0 ≤ x1 ∧ x1 < x0 + (n : Int)) →
            (blitNoDataCols other y x0 n g).getCell y1 x1 = g.getCell y1 x1) := by
  intro n
  induction n with
  | zero =>
    intro x0 g hval hlen hy1 hy2 hx1 hx2
    exact ⟨rfl, rfl, fun y1 x1 _ =>
      ⟨fun h => absurd h (by push_cast; omega), fun _ => rfl⟩⟩
  | succ n ih =>
    intro x0 g hval hlen hy1 hy2 hx1 hx2
    set g1 := g.set_at_grid_index_unchecked y x0
      (other.get_at_grid_index_unchecked y x0) with hg1
    have hb1 : g1.bbox = g.bbox := rfl
    have hl1 : g1.data.length = g.data.length := by
      simp [hg1, Grid2D.set_at_grid_index_unchecked]
    have hcont0 : g.bbox.contains y x0 := by
      unfold GridBoundingBox2D.contains
      push_cast at hx2
      omega
    have hstep : blitNoDataCols other y x0 (n + 1) g =
        blitNoDataCols other y (x0 + 1) n g1 := by
      rw [blitNoDataCols]
    obtain ⟨hbox, hlen', hchar⟩ :=
      ih (x0 + 1) g1 (hb1 ▸ hval) (by rw [hl1, hb1]; exact hlen)
        (hb1 ▸ hy1) (hb1 ▸ hy2) (by rw [hb1]; omega)
        (by rw [hb1]; push_cast at hx2 ⊢; omega)
    rw [hstep]
    refine ⟨hbox.trans hb1, hlen'.trans hl1, ?_⟩
    intro y1 x1 hc
    obtain ⟨hin, hout⟩ := hchar y1 x1 (hb1 ▸ hc)
    have hget1 : g1.getCell y x0 = some other.noDataValue := by
      unfold Grid2D.getCell
      rw [hb1]
      have hlt : g.bbox.linearSpaceIndexNat y x0 < g.data.length := by
        rw [hlen]
        exact g.bbox.linearSpaceIndexNat_lt hval hcont0
      exact List.getElem?_set_self hlt
    have hget_ne : ∀ y2 x2 : Int, g.bbox.contains y2 x2 → ¬(y2 = y ∧ x2 = x0) →
        g1.getCell y2 x2 = g.getCell y2 x2 := by
      intro y2 x2 hc2 hne
      unfold Grid2D.getCell
      rw [hb1]
      exact List.getElem?_set_ne
        (g.bbox.linearSpaceIndexNat_inj hval hcont0 hc2
          fun a => hne ⟨a.1.symm, a.2.symm⟩)
    constructor
    · rintro ⟨hyy, hxa, hxb⟩
      by_cases hx : x0 + 1 ≤ x1
      · exact hin ⟨hyy, hx, by push_cast at hxb ⊢; omega⟩
      · have hxx : x1 = x0 := by omega
        rw [hout (by omega), hxx, hyy]
        exact hget1
    · intro hnot
      have hnot' : ¬(y1 = y ∧ x0 + 1 ≤ x1 ∧ x1 < x0 + 1 + (n : Int)) := by
        push_cast at hnot ⊢
        omega
      rw [hout hnot']
      exact hget_ne y1 x1 hc (by push_cast at hnot; omega)

/-- The row loop of the no-data blit: it keeps the box and buffer length,
writes the no-data value into every cell of the processed window, and leaves
every other cell untouched. -/
theorem blitNoDataRows_spec {T : Type} (other : NoDataGrid2D T) (ox : Int) (xSz : Nat) :
    ∀ (n : Nat) (y0 : Int) (g : Grid2D T),
      g.bbox.valid → g.data.length = g.bbox.numElements →
      g.bbox.minIdx.x ≤ ox → ox + (xSz : Int) ≤ g.bbox.maxIdx.x + 1 →
      g.bbox.minIdx.y ≤ y0 → y0 + (n : Int) ≤ g.bbox.maxIdx.y + 1 →
      (blitNoDataRows other ox xSz y0 n g).bbox = g.bbox ∧
        (blitNoDataRows other ox xSz y0 n g).data.length = g.data.length ∧
        ∀ y1 x1 : Int, g.bbox.contains y1 x1 →
          ((y0 ≤ y1 ∧ y1 < y0 + (n : Int) ∧ ox ≤ x1 ∧ x1 < ox + (xSz : Int)) →
            (blitNoDataRows other ox xSz y0 n g).getCell y1 x1 =
              some other.noDataValue) ∧
          (¬(y0 ≤ y1 ∧ y1 < y0 + (n : Int) ∧ ox ≤ x1 ∧ x1 < ox + (xSz : Int)) →
            (blitNoDataRows other ox xSz y0 n g).getCell y1 x1 = g.getCell y1 x1) := by
  intro n
  induction n with
  | zero =>
    intro y0 g hval hlen hx1 hx2 hy1 hy2
    exact ⟨rfl, rfl, fun y1 x1 _ =>
      ⟨fun h => absurd h (by push_cast; omega), fun _ => rfl⟩⟩
  | succ n ih =>
    intro y0 g hval hlen hx1 hx2 hy1 hy2
    have hy0top : y0 ≤ g.bbox.maxIdx.y := by push_cast at hy2; omega
    obtain ⟨hbox1, hlen1, hchar1⟩ :=
      blitNoDataCols_spec other y0 xSz ox g hval hlen hy1 hy0top hx1 hx2
    set g1 := blitNoDataCols other y0 ox xSz g with hg1
    have hstep : blitNoDataRows other ox xSz y0 (n + 1) g =
        blitNoDataRows other ox xSz (y0 + 1) n g1 := by
      rw [blitNoDataRows]
    obtain ⟨hbox2, hlen2, hchar2⟩ :=
      ih (y0 + 1) g1 (hbox1 ▸ hval) (by rw [hlen1, hbox1]; exact hlen)
        (by rw [hbox1]; exact hx1) (by rw [hbox1]; exact hx2)
        (by rw [hbox1]; omega) (by rw [hbox1]; push_cast at hy2 ⊢; omega)
    rw [hstep]
    refine ⟨hbox2.trans hbox1, hlen2.trans hlen1, ?_⟩
    intro y1 x1 hc
    obtain ⟨hin1, hout1⟩ := hchar1 y1 x1 hc
    obtain ⟨hin2, hout2⟩ := hchar2 y1 x1 (hbox1 ▸ hc)
    constructor
    · rintro ⟨ha, hb, hcx, hdx⟩
      by_cases hy : y0 + 1 ≤ y1
      · exact hin2 ⟨hy, by push_cast at hb ⊢; omega, hcx, hdx⟩
      · have hyy : y1 = y0 := by omega
        rw [hout2 (by omega)]
        exact hin1 ⟨hyy, hcx, hdx⟩
    · intro hnot
      have hnot2 : ¬(y0 + 1 ≤ y1 ∧ y1 < y0 + 1 + (n : Int) ∧ ox ≤ x1 ∧
          x1 < ox + (xSz : Int)) := by
        push_cast at hnot ⊢
        omega
      rw [hout2 hnot2]
      exact hout1 (by push_cast at hnot; omega)

/-- Top-level characterization of the no-data blit on a well-formed
destination with overlapping boxes: the box and buffer length are kept, every
cell of the intersection is overwritten with the no-data value, and every
other cell keeps its previous value. -/
theorem Grid2D.grid_blit_from_no_data_spec {T : Type} (dest : Grid2D T)
    (other : NoDataGrid2D T) (hd : dest.wellFormed) {inter : GridBoundingBox2D}
    (hint : dest.bbox.intersection other.bbox = some inter) :
    (dest.grid_blit_from_no_data other).bbox = dest.bbox ∧
      (dest.grid_blit_from_no_data other).data.length = dest.data.length ∧
      ∀ y x : Int,
        (inter.contains y x →
          (dest.grid_blit_from_no_data other).getCell y x = some other.noDataValue) ∧
        (dest.bbox.contains y x → ¬inter.contains y x →
          (dest.grid_blit_from_no_data other).getCell y x = dest.getCell y x) := by
  obtain ⟨hdval, hdlen⟩ := hd
  have hival := GridBoundingBox2D.intersection_valid hint
  obtain ⟨hm1, hm2, hm3, hm4, hm5, hm6⟩ := GridBoundingBox2D.intersection_eq_some hint
  have hxsz := inter.xSize_intCast hival
  have hysz := inter.ySize_intCast hival
  have hblit : dest.grid_blit_from_no_data other =
      blitNoDataRows other inter.minIdx.x inter.xSize inter.minIdx.y inter.ySize dest := by
    unfold Grid2D.grid_blit_from_no_data
    rw [hint]
  obtain ⟨hbox, hlen, hchar⟩ :=
    blitNoDataRows_spec other inter.minIdx.x inter.xSize inter.ySize inter.minIdx.y
      dest hdval hdlen (by omega) (by omega) (by omega) (by omega)
  rw [hblit]
  refine ⟨hbox, hlen, ?_⟩
  intro y x
  constructor
  · intro hcI
    have hcD : dest.bbox.contains y x :=
      ((GridBoundingBox2D.contains_intersection hint y x).mp hcI).1
    have hcIc := hcI
    unfold GridBoundingBox2D.contains at hcIc
    exact (hchar y x hcD).1 (by omega)
  · intro hcD hnI
    have hnIc : ¬(inter.minIdx.y ≤ y ∧ y ≤ inter.maxIdx.y ∧
        inter.minIdx.x ≤ x ∧ x ≤ inter.maxIdx.x) := hnI
    exact (hchar y x hcD).2 (by omega)

namespace GridBoundingBoxN

theorem intersectAxes_comm : ∀ as bs : List (Int × Int),
    intersectAxes as bs = intersectAxes bs as := by
  intro as
  induction as with
  | nil =>
    intro bs
    cases bs with
    | nil => rfl
    | cons b bs => rfl
  | cons a as ih =>
    intro bs
    cases bs with
    | nil => rfl
    | cons b bs =>
      simp only [intersectAxes]
      rw [max_comm, min_comm, ih bs]

/-- When every per-axis clipped range is non-empty, the recursive intersection
returns exactly the per-axis clipped box. -/
theorem intersectAxes_eq_some (as : List (Int × Int)) :
    ∀ bs : List (Int × Int), as.length = bs.length →
      (∀ r ∈ List.zipWith (fun p q => (max p.1 q.1, min p.2 q.2)) as bs, r.1 ≤ r.2) →
      intersectAxes as bs =
        some (List.zipWith (fun p q => (max p.1 q.1, min p.2 q.2)) as bs) := by
  induction as with
  | nil =>
    intro bs hlen _
    cases bs with
    | nil => rfl
    | cons b bs => exact absurd hlen (by simp)
  | cons a as ih =>
    intro bs hlen hov
    cases bs with
    | nil => exact absurd hlen (by simp)
    | cons b bs =>
      have hhead : max a.1 b.1 ≤ min a.2 b.2 :=
        hov (max a.1 b.1, min a.2 b.2) (by simp)
      have htail := ih bs (by simpa using hlen) fun r hr => hov r (by simp [hr])
      simp only [intersectAxes, List.zipWith_cons_cons]
      rw [if_pos hhead, htail]
      rfl

/-- As soon as one per-axis clipped range is empty, the recursive intersection
returns none. -/
theorem intersectAxes_eq_none (as : List (Int × Int)) :
    ∀ bs : List (Int × Int),
      ¬(∀ r ∈ List.zipWith (fun p q => (max p.1 q.1, min p.2 q.2)) as bs, r.1 ≤ r.2) →
      intersectAxes as bs = none := by
  induction as with
  | nil =>
    intro bs hnov
    exact absurd (by simp) hnov
  | cons a as ih =>
    intro bs hnov
    cases bs with
    | nil => exact absurd (by simp) hnov
    | cons b bs =>
      by_cases hhead : max a.1 b.1 ≤ min a.2 b.2
      · have htail : ¬(∀ r ∈ List.zipWith
            (fun p q => (max p.1 q.1, min p.2 q.2)) as bs, r.1 ≤ r.2) := by
          intro hall
          apply hnov
          intro r hr
          rw [List.zipWith_cons_cons, List.mem_cons] at hr
          rcases hr with hr | hr
          · subst hr
            exact hhead
          · exact hall r hr
        simp only [intersectAxes]
        rw [if_pos hhead, ih bs htail]
        rfl
      · simp only [intersectAxes]
        rw [if_neg hhead]

end GridBoundingBoxN

/-- The accumulating state consumes exactly the current run and then behaves
like a fresh fold over the rest. -/
theorem timeMultiFoldGo_eq {I V A : Type} [DecidableEq I] (g : Unit → A)
    (f : A → Tile I V → A) :
    ∀ (ts : List (Tile I V)) (i : I) (a : A),
      timeMultiFoldGo g f i a ts =
        (ts.takeWhile (fun t => t.interval = i)).foldl f a ::
          timeMultiFold g f (ts.dropWhile (fun t => t.interval = i)) := by
  intro ts
  induction ts with
  | nil => intro i a; rfl
  | cons t ts ih =>
    intro i a
    by_cases ht : t.interval = i
    · rw [timeMultiFoldGo, if_pos ht,
        List.takeWhile_cons_of_pos (by simpa using ht),
        List.dropWhile_cons_of_pos (by simpa using ht), List.foldl_cons, ih]
    · rw [timeMultiFoldGo, if_neg ht,
        List.takeWhile_cons_of_neg (by simpa using ht),
        List.dropWhile_cons_of_neg (by simpa using ht), List.foldl_nil]
      rfl

/-- `time_multi_fold` performs exactly one fold per maximal run of
equal-interval tiles, emitting the folded accumulators in arrival order. -/
theorem timeMultiFold_eq_runs {I V A : Type} [DecidableEq I] (g : Unit → A)
    (f : A → Tile I V → A) :
    ∀ ts : List (Tile I V),
      timeMultiFold g f ts = (tileRuns ts).map fun r => r.2.foldl f (g ()) := by
  suffices h : ∀ (N : Nat) (ts : List (Tile I V)), ts.length ≤ N →
      timeMultiFold g f ts = (tileRuns ts).map fun r => r.2.foldl f (g ()) from
    fun ts => h ts.length ts le_rfl
  intro N
  induction N with
  | zero =>
    intro ts h
    rw [List.length_eq_zero.mp (Nat.le_zero.mp h)]
    simp [timeMultiFold, tileRuns]
  | succ N ih =>
    intro ts h
    cases ts with
    | nil => simp [timeMultiFold, tileRuns]
    | cons t ts =>
      have h1 : timeMultiFold g f (t :: ts) =
          timeMultiFoldGo g f t.interval (f (g ()) t) ts := rfl
      rw [h1, timeMultiFoldGo_eq, tileRuns, List.map_cons]
      congr 1
      exact ih _ (le_trans (List.dropWhile_sublist _).length_le (by simpa using h))

/-- Collapsing a list headed by `i` removes exactly the leading run of `i`. -/
theorem dedupConsecutive_cons {I : Type} [DecidableEq I] :
    ∀ (l : List I) (i : I),
      dedupConsecutive (i :: l) =
        i :: dedupConsecutive (l.dropWhile (fun j => j = i)) := by
  intro l
  induction l with
  | nil => intro i; rfl
  | cons j l ih =>
    intro i
    by_cases hij : i = j
    · rw [dedupConsecutive, if_pos hij, List.dropWhile_cons_of_pos (by simpa using hij.symm),
        ih j, hij]
    · rw [dedupConsecutive, if_neg hij,
        List.dropWhile_cons_of_neg (by simpa using fun h => hij h.symm)]

/-- Collapsing consecutive duplicates keeps exactly the members. -/
theorem mem_dedupConsecutive {I : Type} [DecidableEq I] :
    ∀ (l : List I) (i : I), i ∈ dedupConsecutive l ↔ i ∈ l := by
  suffices h : ∀ (N : Nat) (l : List I), l.length ≤ N →
      ∀ i : I, i ∈ dedupConsecutive l ↔ i ∈ l from
    fun l i => h l.length l le_rfl i
  intro N
  induction N with
  | zero =>
    intro l h i
    rw [List.length_eq_zero.mp (Nat.le_zero.mp h)]
    rfl
  | succ N ih =>
    intro l h i
    cases l with
    | nil => rfl
    | cons j l =>
      rw [dedupConsecutive_cons, List.mem_cons, List.mem_cons,
        ih _ (le_trans (List.dropWhile_sublist _).length_le (by simpa using h))]
      constructor
      · rintro (rfl | hmem)
        · exact Or.inl rfl
        · exact Or.inr ((List.dropWhile_sublist _).mem hmem)
      · rintro (rfl | hmem)
        · exact Or.inl rfl
        · by_cases hji : i = j
          · exact Or.inl hji
          · refine Or.inr ?_
            have hsplit := List.takeWhile_append_dropWhile
              (fun k => decide (k = j)) l
            rw [← hsplit, List.mem_append] at hmem
            rcases hmem with hmem | hmem
            · exact absurd (by simpa using List.mem_takeWhile_imp hmem) hji
            · exact hmem

/-- The run labels of a tile stream are the interval list with consecutive
duplicates collapsed. -/
theorem tileRuns_fst {I V : Type} [DecidableEq I] :
    ∀ ts : List (Tile I V),
      (tileRuns ts).map Prod.fst = dedupConsecutive (ts.map Tile.interval) := by
  suffices h : ∀ (N : Nat) (ts : List (Tile I V)), ts.length ≤ N →
      (tileRuns ts).map Prod.fst = dedupConsecutive (ts.map Tile.interval) from
    fun ts => h ts.length ts le_rfl
  intro N
  induction N with
  | zero =>
    intro ts h
    rw [List.length_eq_zero.mp (Nat.le_zero.mp h)]
    simp [tileRuns, dedupConsecutive]
  | succ N ih =>
    intro ts h
    cases ts with
    | nil => simp [tileRuns, dedupConsecutive]
    | cons t ts =>
      rw [tileRuns, List.map_cons, List.map_cons, dedupConsecutive_cons,
        List.dropWhile_map, ih _ (le_trans (List.dropWhile_sublist _).length_le
          (by simpa using h))]
      rfl

/-- When the collapsed list has pairwise-distinct entries (the grouped-stream
precondition), it lists exactly the distinct values in first-arrival order. -/
theorem dedupConsecutive_eq_firstOccurrences {I : Type} [DecidableEq I] :
    ∀ l : List I, (dedupConsecutive l).Nodup →
      firstOccurrences l = dedupConsecutive l := by
  suffices h : ∀ (N : Nat) (l : List I), l.length ≤ N → (dedupConsecutive l).Nodup →
      firstOccurrences l = dedupConsecutive l from
    fun l => h l.length l le_rfl
  intro N
  induction N with
  | zero =>
    intro l h _
    rw [List.length_eq_zero.mp (Nat.le_zero.mp h)]
    simp [firstOccurrences, dedupConsecutive]
  | succ N ih =>
    intro l h hnd
    cases l with
    | nil => simp [firstOccurrences, dedupConsecutive]
    | cons i l =>
      rw [dedupConsecutive_cons] at hnd ⊢
      obtain ⟨hni, hnd'⟩ := List.nodup_cons.mp hnd
      have hnotmem : i ∉ l.dropWhile (fun j => j = i) := by
        intro hmem
        exact hni ((mem_dedupConsecutive _ i).mpr hmem)
      rw [firstOccurrences]
      congr 1
      have hfilter : l.filter (fun j => j ≠ i) = l.dropWhile (fun j => j = i) := by
        have hsplit := List.takeWhile_append_dropWhile (fun k => decide (k = i)) l
        conv_lhs => rw [← hsplit]
        rw [List.filter_append]
        have h1 : (l.takeWhile (fun k => decide (k = i))).filter (fun j => j ≠ i) = [] := by
          rw [List.filter_eq_nil_iff]
          intro a ha
          simpa using List.mem_takeWhile_imp ha
        have h2 : (l.dropWhile (fun k => decide (k = i))).filter (fun j => j ≠ i) =
            l.dropWhile (fun k => decide (k = i)) := by
          rw [List.filter_eq_self]
          intro a ha
          simp only [ne_eq, decide_eq_true_eq]
          intro hai
          exact hnotmem (hai ▸ ha)
        rw [h1, h2, List.nil_append]
      rw [hfilter]
      exact ih _ (le_trans (List.dropWhile_sublist _).length_le (by simpa using h)) hnd'

theorem chunkByteSize_append {F : Type} (sizeF : F → Nat) (a b : List F) :
    chunkByteSize sizeF (a ++ b) = chunkByteSize sizeF a + chunkByteSize sizeF b := by
  unfold chunkByteSize
  rw [List.map_append, List.sum_append]

/-- The merger loop re-emits every feature exactly once, in order: the
concatenation of its output chunks is the pending buffer followed by the
concatenation of the upstream batches (so the final flush loses nothing). -/
theorem mergeChunksGo_join {F : Type} (sizeF : F → Nat) (budget : Nat) :
    ∀ (bs : List (List F)) (pending : List F),
      (mergeChunksGo sizeF budget pending bs).flatten = pending ++ bs.flatten := by
  intro bs
  induction bs with
  | nil =>
    intro pending
    by_cases hp : pending.isEmpty
    · rw [mergeChunksGo, if_pos hp, List.isEmpty_iff.mp hp]
      rfl
    · rw [mergeChunksGo, if_neg hp]
      simp
  | cons b bs ih =>
    intro pending
    rw [mergeChunksGo]
    split
    · rw [List.flatten_cons, ih b]
      simp
    · rw [ih (pending ++ b)]
      simp

/-- Every chunk the merger loop emits either fits the byte budget or is one
upstream batch (or the initial pending buffer) passed through unmerged. -/
theorem mergeChunksGo_chunks {F : Type} (sizeF : F → Nat) (budget : Nat) :
    ∀ (bs : List (List F)) (pending : List F),
      ∀ c ∈ mergeChunksGo sizeF budget pending bs,
        chunkByteSize sizeF c ≤ budget ∨ c = pending ∨ c ∈ bs := by
  intro bs
  induction bs with
  | nil =>
    intro pending c hc
    rw [mergeChunksGo] at hc
    split at hc
    · cases hc
    · rw [List.mem_singleton] at hc
      exact Or.inr (Or.inl hc)
  | cons b bs ih =>
    intro pending c hc
    rw [mergeChunksGo] at hc
    split at hc
    · rw [List.mem_cons] at hc
      rcases hc with rfl | hc
      · exact Or.inr (Or.inl rfl)
      · rcases ih b c hc with hsz | rfl | hmem
        · exact Or.inl hsz
        · exact Or.inr (Or.inr (List.mem_cons_self _ _))
        · exact Or.inr (Or.inr (List.mem_cons_of_mem _ hmem))
    · next hcond =>
      rcases ih (pending ++ b) c hc with hsz | rfl | hmem
      · exact Or.inl hsz
      · rcases Decidable.not_and_iff_or_not.mp hcond with hle | hpe
        · exact Or.inl (by rw [chunkByteSize_append]; omega)
        · have hpe' : pending = [] := List.isEmpty_iff.mp (Decidable.not_not.mp hpe)
          exact Or.inr (Or.inr (by rw [hpe', List.nil_append]; exact List.mem_cons_self _ _))
      · exact Or.inr (Or.inr (List.mem_cons_of_mem _ hmem))

namespace GridBoundingBox2D

/-- A valid box intersected with itself is itself. -/
theorem intersection_self (b : GridBoundingBox2D) (hb : b.valid) :
    b.intersection b = some b := by
  obtain ⟨hy, hx⟩ := hb
  unfold intersection
  simp only [max_self, min_self]
  rw [if_pos ⟨hy, hx⟩]

/-- Every buffer position of a valid box is the linear offset of exactly one
in-box grid index. -/
theorem exists_index_of_pos (b : GridBoundingBox2D) (hb : b.valid) (p : Nat)
    (hp : p < b.numElements) :
    ∃ y x : Int, b.contains y x ∧ b.linearSpaceIndexNat y x = p := by
  have hbv := hb
  unfold valid at hbv
  have hW : 0 < b.xSize := by
    unfold xSize
    omega
  have hWy := b.ySize_intCast hb
  have hWx := b.xSize_intCast hb
  have hdiv : p / b.xSize < b.ySize := by
    rw [Nat.div_lt_iff_lt_mul hW]
    calc p < b.numElements := hp
    _ = b.ySize * b.xSize := rfl
  have hmod : p % b.xSize < b.xSize := Nat.mod_lt p hW
  have h := Nat.div_add_mod p b.xSize
  generalize hd : p / b.xSize = d at hdiv h
  generalize hm : p % b.xSize = m at hmod h
  refine ⟨b.minIdx.y + ((d : Nat) : Int), b.minIdx.x + ((m : Nat) : Int), ?_, ?_⟩
  · unfold contains
    omega
  · have h' : ((b.xSize : Nat) : Int) * ((d : Nat) : Int) + ((m : Nat) : Int) =
        ((p : Nat) : Int) := by
      exact_mod_cast congrArg (fun n : Nat => (n : Int)) h
    unfold linearSpaceIndexNat linearSpaceIndex
    have hkey : (b.minIdx.y + ((d : Nat) : Int) - b.minIdx.y) * (b.xSize : Int) +
        (b.minIdx.x + ((m : Nat) : Int) - b.minIdx.x) = ((p : Nat) : Int) := by
      linear_combination h'
    rw [hkey]
    exact Int.toNat_natCast p

end GridBoundingBox2D

/-! ## The claims -/

/-- C1: for every pair of well-formed 2-D grids whose bounding boxes overlap,
after `grid_blit_from` every destination cell inside
`intersection(dest.bbox, src.bbox)` equals the `src` cell at the same grid
index, and every destination cell outside the intersection keeps its pre-blit
value. -/
theorem claim_C1_blit_cells {T : Type} (dest src : Grid2D T)
    (hd : dest.wellFormed) (hs : src.wellFormed) (inter : GridBoundingBox2D)
    (hint : dest.bbox.intersection src.bbox = some inter) :
    ∃ out, dest.grid_blit_from src = some out ∧
      (∀ y x : Int, inter.contains y x → out.getCell y x = src.getCell y x) ∧
      (∀ y x : Int, dest.bbox.contains y x → ¬inter.contains y x →
        out.getCell y x = dest.getCell y x) := by
  obtain ⟨out, hblit, _, _, hcells⟩ := dest.grid_blit_from_spec src hd hs hint
  exact ⟨out, hblit, fun y x h => (hcells y x).1 h,
    fun y x h h' => (hcells y x).2 h h'⟩

/-- Witness for C1: the source test `grid_blit_from_2d_2_2` instance. -/
theorem claim_C1_witness :
    destZero4.wellFormed ∧ src4At22.wellFormed ∧
      destZero4.bbox.intersection src4At22.bbox =
        some ⟨⟨2, 2⟩, ⟨3, 3⟩⟩ ∧
      ∃ out, destZero4.grid_blit_from src4At22 = some out ∧
        (∀ y x : Int, GridBoundingBox2D.contains ⟨⟨2, 2⟩, ⟨3, 3⟩⟩ y x →
          out.getCell y x = src4At22.getCell y x) ∧
        (∀ y x : Int, destZero4.bbox.contains y x →
          ¬GridBoundingBox2D.contains ⟨⟨2, 2⟩, ⟨3, 3⟩⟩ y x →
          out.getCell y x = destZero4.getCell y x) :=
  ⟨by decide, by decide, by decide,
    claim_C1_blit_cells destZero4 src4At22 (by decide) (by decide) _ (by decide)⟩

/-- C2: every successful 2-D or 3-D dense blit keeps the destination's
bounding box (offset and shape) and buffer length; and when the two bounding
boxes do not overlap, the blit returns the destination unchanged — a no-op,
not an error. -/
theorem claim_C2_blit_frame :
    (∀ (T : Type) (dest src out : Grid2D T), dest.grid_blit_from src = some out →
      out.bbox = dest.bbox ∧ out.data.length = dest.data.length) ∧
    (∀ (T : Type) (dest src : Grid2D T), dest.bbox.intersection src.bbox = none →
      dest.grid_blit_from src = some dest) ∧
    (∀ (T : Type) (dest src out : Grid3D T), dest.grid_blit_from src = some out →
      out.bbox = dest.bbox ∧ out.data.length = dest.data.length) ∧
    (∀ (T : Type) (dest src : Grid3D T), dest.bbox.intersection src.bbox = none →
      dest.grid_blit_from src = some dest) :=
  ⟨fun _ dest src out h => Grid2D.grid_blit_from_frame dest src out h,
    fun _ dest src h => Grid2D.grid_blit_from_no_overlap dest src h,
    fun _ dest src out h => Grid3D.grid_blit_from_frame3 dest src out h,
    fun _ dest src h => Grid3D.grid_blit_from_no_overlap3 dest src h⟩

/-- Witness for C2: frame facts at the source-test instances, plus the
no-overlap no-ops. -/
theorem claim_C2_witness :
    (blit22Result.bbox = destZero4.bbox ∧
      blit22Result.data.length = destZero4.data.length) ∧
    destZero4.grid_blit_from srcFar = some destZero4 ∧
    ((Grid3D.mk dest3Zero.bbox src3Cube.data).bbox = dest3Zero.bbox ∧
      (Grid3D.mk dest3Zero.bbox src3Cube.data).data.length = dest3Zero.data.length) ∧
    dest3Zero.grid_blit_from src3Far = some dest3Zero :=
  ⟨claim_C2_blit_frame.1 Nat destZero4 src4At22 blit22Result (by decide),
    claim_C2_blit_frame.2.1 Nat destZero4 srcFar (by decide),
    claim_C2_blit_frame.2.2.1 Nat dest3Zero src3Cube _ (by decide),
    claim_C2_blit_frame.2.2.2 Nat dest3Zero src3Far (by decide)⟩

/-- C3 counterexample: the spec's description of the `(2,2)` test source is
contradictory — a 3×3 grid cannot hold the sixteen values `0..15` (the
constructor rejects it), and blitting an actual 3×3 grid at offset (2,2)
(holding `0..8` row-major) does not produce the buffer the spec asserts. -/
theorem claim_C3_counterexample :
    Grid2D.new box33At22 vals16 = none ∧
      (destZero4.grid_blit_from src3At22).map Grid2D.data ≠
        some [0, 0, 0, 0, 0, 0, 0, 0, 0, 0, 0, 1, 0, 0, 4, 5] := by
  decide

/-- C3 amended: the test's source grid is 4×4 (box min (2,2), max (5,5),
i.e. `GridIdx([2,2])` to `GridIdx([2,2]) + [3,3]`) holding `0..15` row-major;
blitting it into the 4×4 zero destination at (0,0) overwrites exactly the
bottom-right 2×2 region of the destination with the top-left 2×2 values of
the source, yielding the buffer `[0,0,0,0, 0,0,0,0, 0,0,0,1, 0,0,4,5]`. -/
theorem claim_C3_amended :
    destZero4.grid_blit_from src4At22 = some blit22Result := by
  decide

/-- C4: for boxes of equal arity, `intersection(a, b)` returns some box whose
per-axis range is `max(a.min[i], b.min[i])..min(a.max[i], b.max[i])` when that
range is non-empty on every axis, and returns none as soon as the range is
empty on any single axis. -/
theorem claim_C4_intersection_per_axis (a b : GridBoundingBoxN)
    (h : a.arity = b.arity) :
    (GridBoundingBoxN.specOverlaps a b →
      a.intersection b = some (GridBoundingBoxN.specIntersectionBox a b)) ∧
    (¬GridBoundingBoxN.specOverlaps a b → a.intersection b = none) := by
  constructor
  · intro hov
    unfold GridBoundingBoxN.intersection
    rw [GridBoundingBoxN.intersectAxes_eq_some a.axes b.axes h hov]
    rfl
  · intro hnov
    unfold GridBoundingBoxN.intersection
    rw [GridBoundingBoxN.intersectAxes_eq_none a.axes b.axes hnov]
    rfl

/-- Witness for C4: an overlapping and a non-overlapping concrete pair. -/
theorem claim_C4_witness :
    (boxN_0033.arity = boxN_2255.arity ∧ GridBoundingBoxN.specOverlaps boxN_0033 boxN_2255 ∧
      boxN_0033.intersection boxN_2255 =
        some (GridBoundingBoxN.specIntersectionBox boxN_0033 boxN_2255)) ∧
    (boxN_0033.arity = boxN_disjoint.arity ∧
      ¬GridBoundingBoxN.specOverlaps boxN_0033 boxN_disjoint ∧
      boxN_0033.intersection boxN_disjoint = none) :=
  ⟨⟨by decide, by decide,
      (claim_C4_intersection_per_axis boxN_0033 boxN_2255 (by decide)).1 (by decide)⟩,
    ⟨by decide, by decide,
      (claim_C4_intersection_per_axis boxN_0033 boxN_disjoint (by decide)).2 (by decide)⟩⟩

/-- C8: intersection is commutative — in the arity-generic model for boxes of
equal arity, and for the 2-D boxes the blit engine uses. -/
theorem claim_C8_intersection_comm :
    (∀ a b : GridBoundingBoxN, a.arity = b.arity →
      a.intersection b = b.intersection a) ∧
    (∀ a b : GridBoundingBox2D, a.intersection b = b.intersection a) := by
  constructor
  · intro a b _
    unfold GridBoundingBoxN.intersection
    rw [GridBoundingBoxN.intersectAxes_comm]
  · intro a b
    unfold GridBoundingBox2D.intersection
    rw [max_comm a.minIdx.y, min_comm a.maxIdx.y, max_comm a.minIdx.x,
      min_comm a.maxIdx.x]

/-- Witness for C8: the generic and the 2-D commutativity at concrete boxes. -/
theorem claim_C8_witness :
    boxN_0033.arity = boxN_2255.arity ∧
      boxN_0033.intersection boxN_2255 = boxN_2255.intersection boxN_0033 ∧
      destZero4.bbox.intersection src4At22.bbox =
        src4At22.bbox.intersection destZero4.bbox :=
  ⟨by decide, claim_C8_intersection_comm.1 boxN_0033 boxN_2255 (by decide),
    claim_C8_intersection_comm.2 destZero4.bbox src4At22.bbox⟩

/-- C5: over a grouped upstream (all tiles of one time interval contiguous),
`time_multi_fold` emits exactly one output per distinct time interval, in the
order the intervals first arrive: the outputs are one fold per maximal run of
equal-interval tiles, the run intervals are exactly the distinct intervals in
first-arrival order, and the output count equals the distinct-interval
count — never more and never fewer, even when an interval spans several
tiles. -/
theorem claim_C5_time_multi_fold {I V A : Type} [DecidableEq I] (g : Unit → A)
    (f : A → Tile I V → A) (ts : List (Tile I V)) (h : GroupedIntervals ts) :
    timeMultiFold g f ts = ((tileRuns ts).map fun r => r.2.foldl f (g ())) ∧
      (tileRuns ts).map Prod.fst = firstOccurrences (ts.map Tile.interval) ∧
      (timeMultiFold g f ts).length =
        (firstOccurrences (ts.map Tile.interval)).length := by
  have h1 := timeMultiFold_eq_runs g f ts
  have h2 := tileRuns_fst (I := I) (V := V) ts
  have h3 := dedupConsecutive_eq_firstOccurrences (ts.map Tile.interval) h
  refine ⟨h1, h2.trans h3.symm, ?_⟩
  rw [h1, List.length_map, h3, ← h2, List.length_map]

/-- Witness for C5: the example stream is grouped, the theorem applies, and
the emitted accumulators (summing fold from a zero accumulator) are the three
per-interval sums `[6, 9, 6]`, in order `A, B, C`. -/
theorem claim_C5_witness :
    GroupedIntervals exTiles ∧
      (timeMultiFold (fun _ => 0) (fun a t => a + t.value) exTiles =
          ((tileRuns exTiles).map fun r =>
            r.2.foldl (fun a t => a + t.value) ((fun _ => 0) ())) ∧
        (tileRuns exTiles).map Prod.fst =
          firstOccurrences (exTiles.map Tile.interval) ∧
        (timeMultiFold (fun _ => 0) (fun a t => a + t.value) exTiles).length =
          (firstOccurrences (exTiles.map Tile.interval)).length) ∧
      timeMultiFold (fun _ => 0) (fun a t => a + t.value) exTiles = [6, 9, 6] :=
  ⟨by decide, claim_C5_time_multi_fold _ _ _ (by decide), by rfl⟩

/-- C6: the chunk merger re-emits exactly the upstream features in order (so
nothing is dropped or truncated and any pending buffer is flushed at
end-of-stream), and every emitted chunk either fits the byte budget or is a
single upstream batch passed through unmerged. -/
theorem claim_C6_merge_chunks {F : Type} (sizeF : F → Nat) (budget : Nat)
    (batches : List (List F)) :
    (mergeChunks sizeF budget batches).flatten = batches.flatten ∧
      ∀ c ∈ mergeChunks sizeF budget batches,
        chunkByteSize sizeF c ≤ budget ∨ c ∈ batches := by
  constructor
  · unfold mergeChunks
    rw [mergeChunksGo_join]
    rfl
  · intro c hc
    rcases mergeChunksGo_chunks sizeF budget batches [] c hc with hsz | rfl | hmem
    · exact Or.inl hsz
    · exact Or.inl (by simp [chunkByteSize])
    · exact Or.inr hmem

/-- Witness for C6: with a 25-byte budget the three 10-byte batches merge to
chunks of 20 and 10 bytes; an oversized 30-byte batch passes through as its
own chunk; each emitted chunk satisfies the budget-or-passthrough property
and the features are preserved. -/
theorem claim_C6_witness :
    mergeChunks (fun n => n) 25 exBatches = [[10, 10], [10]] ∧
      ((mergeChunks (fun n => n) 25 exBatches).flatten = exBatches.flatten ∧
        ∀ c ∈ mergeChunks (fun n => n) 25 exBatches,
          chunkByteSize (fun n => n) c ≤ 25 ∨ c ∈ exBatches) ∧
      mergeChunks (fun n => n) 25 exBatchesBig = [[30], [10]] ∧
      ((mergeChunks (fun n => n) 25 exBatchesBig).flatten = exBatchesBig.flatten ∧
        ∀ c ∈ mergeChunks (fun n => n) 25 exBatchesBig,
          chunkByteSize (fun n => n) c ≤ 25 ∨ c ∈ exBatchesBig) :=
  ⟨by decide, claim_C6_merge_chunks (fun n => n) 25 exBatches, by decide,
    claim_C6_merge_chunks (fun n => n) 25 exBatchesBig⟩

/-- C7: blitting a `NoDataGrid` source into a well-formed dense 2-D grid
writes the carried no-data value element-by-element into every destination
cell inside `intersection(dest.bbox, src.bbox)` and leaves every cell outside
the intersection unchanged; a `GridOrEmpty` source behaves exactly like its
wrapped `Grid` or `NoDataGrid` variant. -/
theorem claim_C7_no_data_blit :
    (∀ (T : Type) (dest : Grid2D T) (nd : NoDataGrid2D T)
        (inter : GridBoundingBox2D), dest.wellFormed →
        dest.bbox.intersection nd.bbox = some inter →
        (∀ y x : Int, inter.contains y x →
          (dest.grid_blit_from_no_data nd).getCell y x = some nd.noDataValue) ∧
        (∀ y x : Int, dest.bbox.contains y x → ¬inter.contains y x →
          (dest.grid_blit_from_no_data nd).getCell y x = dest.getCell y x)) ∧
    (∀ (T : Type) (dest g : Grid2D T),
      dest.grid_blit_from_or_empty (GridOrEmpty2D.grid g) = dest.grid_blit_from g) ∧
    (∀ (T : Type) (dest : Grid2D T) (e : NoDataGrid2D T),
      dest.grid_blit_from_or_empty (GridOrEmpty2D.empty e) =
        some (dest.grid_blit_from_no_data e)) := by
  refine ⟨?_, fun _ _ _ => rfl, fun _ _ _ => rfl⟩
  intro T dest nd inter hd hint
  obtain ⟨_, _, hcells⟩ := dest.grid_blit_from_no_data_spec nd hd hint
  exact ⟨fun y x h => (hcells y x).1 h, fun y x h h' => (hcells y x).2 h h'⟩

/-- Witness for C7: the no-data blit over the `(2,2)` geometry, with the
concrete resulting buffer, and the two dispatch equations at the same
inputs. -/
theorem claim_C7_witness :
    destZero4.wellFormed ∧
      destZero4.bbox.intersection ndAt22.bbox = some ⟨⟨2, 2⟩, ⟨3, 3⟩⟩ ∧
      ((∀ y x : Int, GridBoundingBox2D.contains ⟨⟨2, 2⟩, ⟨3, 3⟩⟩ y x →
          (destZero4.grid_blit_from_no_data ndAt22).getCell y x = some 9) ∧
        (∀ y x : Int, destZero4.bbox.contains y x →
          ¬GridBoundingBox2D.contains ⟨⟨2, 2⟩, ⟨3, 3⟩⟩ y x →
          (destZero4.grid_blit_from_no_data ndAt22).getCell y x =
            destZero4.getCell y x)) ∧
      destZero4.grid_blit_from_no_data ndAt22 =
        ⟨destZero4.bbox, [0, 0, 0, 0, 0, 0, 0, 0, 0, 0, 9, 9, 0, 0, 9, 9]⟩ ∧
      destZero4.grid_blit_from_or_empty (GridOrEmpty2D.grid src4At22) =
        destZero4.grid_blit_from src4At22 ∧
      destZero4.grid_blit_from_or_empty (GridOrEmpty2D.empty ndAt22) =
        some (destZero4.grid_blit_from_no_data ndAt22) :=
  ⟨by decide, by decide,
    claim_C7_no_data_blit.1 Nat destZero4 ndAt22 _ (by decide) (by decide),
    by decide,
    claim_C7_no_data_blit.2.1 Nat destZero4 src4At22,
    claim_C7_no_data_blit.2.2 Nat destZero4 ndAt22⟩

/-- C9: a full-overlap blit is a copy — for well-formed grids of identical
bounding box (same offset and shape), the blit succeeds and the destination's
buffer afterwards is identical to the source's buffer. -/
theorem claim_C9_full_overlap_copy {T : Type} (dest src : Grid2D T)
    (hd : dest.wellFormed) (hs : src.wellFormed) (hbb : dest.bbox = src.bbox) :
    ∃ out, dest.grid_blit_from src = some out ∧ out.bbox = dest.bbox ∧
      out.data = src.data := by
  have hint : dest.bbox.intersection src.bbox = some dest.bbox := by
    rw [hbb]
    exact src.bbox.intersection_self hs.1
  obtain ⟨out, hblit, hbbox, hlen, hcells⟩ := dest.grid_blit_from_spec src hd hs hint
  refine ⟨out, hblit, hbbox, ?_⟩
  have hlen2 : out.data.length = src.data.length := by
    rw [hlen, hd.2, hs.2, hbb]
  apply List.ext_getElem?
  intro p
  by_cases hp : p < src.data.length
  · have hpn : p < dest.bbox.numElements := by
      rw [hbb]
      rw [hs.2] at hp
      exact hp
    obtain ⟨y, x, hc, hlin⟩ := dest.bbox.exists_index_of_pos hd.1 p hpn
    have hcell := (hcells y x).1 hc
    unfold Grid2D.getCell at hcell
    rw [hbbox] at hcell
    rw [← hbb] at hcell
    rw [hlin] at hcell
    exact hcell
  · rw [List.getElem?_eq_none (by omega), List.getElem?_eq_none (by omega)]

/-- Witness for C9: the source test `grid_blit_from_2d_0_0` instance — a 4×4
grid of sevens blitted into an identically-placed 4×4 zero grid copies the
whole buffer. -/
theorem claim_C9_witness :
    destZero4.wellFormed ∧ srcSeven4.wellFormed ∧ destZero4.bbox = srcSeven4.bbox ∧
      (∃ out, destZero4.grid_blit_from srcSeven4 = some out ∧
        out.bbox = destZero4.bbox ∧ out.data = srcSeven4.data) ∧
      destZero4.grid_blit_from srcSeven4 =
        some ⟨destZero4.bbox, List.replicate 16 7⟩ :=
  ⟨by decide, by decide, by decide,
    claim_C9_full_overlap_copy destZero4 srcSeven4 (by decide) (by decide) (by decide),
    by decide⟩

/-- C10: for well-formed destination and source grids (valid boxes, buffer
length equal to the product of the axis sizes), the dense 1-D, 2-D and 3-D
blits never panic: every slice copy they perform is in bounds (in this
embedding a panic is `none`, so success is exactly the in-bounds property;
the paired source and destination ranges share the one overlap width by
construction). -/
theorem claim_C10_no_panic :
    (∀ (T : Type) (dest src : Grid1D T), dest.wellFormed → src.wellFormed →
      ∃ out, dest.grid_blit_from src = some out) ∧
    (∀ (T : Type) (dest src : Grid2D T), dest.wellFormed → src.wellFormed →
      ∃ out, dest.grid_blit_from src = some out) ∧
    (∀ (T : Type) (dest src : Grid3D T), dest.wellFormed → src.wellFormed →
      ∃ out, dest.grid_blit_from src = some out) := by
  refine ⟨?_, ?_, ?_⟩
  · intro T dest src hd hs
    obtain ⟨out, hout, _, _⟩ := dest.grid_blit_from_isSome1 src hd hs
    exact ⟨out, hout⟩
  · intro T dest src hd hs
    cases hint : dest.bbox.intersection src.bbox with
    | none => exact ⟨dest, dest.grid_blit_from_no_overlap src hint⟩
    | some inter =>
      obtain ⟨out, hout, _, _, _⟩ := dest.grid_blit_from_spec src hd hs hint
      exact ⟨out, hout⟩
  · intro T dest src hd hs
    obtain ⟨out, hout, _, _⟩ := dest.grid_blit_from_isSome3 src hd hs
    exact ⟨out, hout⟩

/-- Witness for C10: the three dense blits succeed on concrete well-formed
grids (with partial overlap in 1-D and 2-D and full overlap in 3-D). -/
theorem claim_C10_witness :
    (dest1Zero.wellFormed ∧ src1At2.wellFormed ∧
      ∃ out, dest1Zero.grid_blit_from src1At2 = some out) ∧
    (destZero4.wellFormed ∧ src4At22.wellFormed ∧
      ∃ out, destZero4.grid_blit_from src4At22 = some out) ∧
    (dest3Zero.wellFormed ∧ src3Cube.wellFormed ∧
      ∃ out, dest3Zero.grid_blit_from src3Cube = some out) :=
  ⟨⟨by decide, by decide,
      claim_C10_no_panic.1 Nat dest1Zero src1At2 (by decide) (by decide)⟩,
    ⟨by decide, by decide,
      claim_C10_no_panic.2.1 Nat destZero4 src4At22 (by decide) (by decide)⟩,
    ⟨by decide, by decide,
      claim_C10_no_panic.2.2 Nat dest3Zero src3Cube (by decide) (by decide)⟩⟩
